import Mathlib

/-!
Rejection-free KMC event selector (lotto)

A shallow embedding of `include/lotto/rejection_free.hpp`.

* Doubles are exact rationals (`ℚ`): rounding, NaN and the infinities have no
  counterpart, so the only invalid rate is a negative one.
* A C++ member function that mutates the object becomes a function returning
  its result together with the state the object is left in; a thrown exception
  is an `Except.error` result, paired with the state at the point of the throw.
* `event_rate_tree.hpp`, `event_selector.hpp` and `random.hpp` are included by
  the header; what the selector needs from them is modelled from the
  specification and marked as such.
-/

namespace Lotto

/-- Failures that can leave the selector: the error surface named by the
specification, the two standard exceptions thrown by the header itself
(`std::out_of_range` from `std::map::at`, `std::runtime_error` from the
constructors), a failed `assert`, and the outcome of a tree query the
specification leaves undefined. -/
inductive Error where
  | EmptyEventSet
  | DuplicateEvent
  | InvalidRate
  | UnknownEvent
  | ExhaustedRates
  | QueryUndefined
  | out_of_range
  | runtime_error (what : String)
  | assertion_failed
  deriving DecidableEq

deriving instance DecidableEq for Except

/-! ## Random source (modelled) -/

/-- Modelled from the spec: the `RandomSource` collaborator of `lotto/random.hpp`,
which is not among the sources. The engine is a deterministic function of the seed
and of the number of variates drawn since seeding; `engine seed n` is the `n`-th
value of the half-open unit-interval sampler. -/
structure RandomGenerator where
  engine : Nat → Nat → ℚ
  seed : Nat
  drawn : Nat

/-- Modelled from the spec: `unit_interval() -> f64 ∈ [0, 1)`; one variate is
consumed. -/
def RandomGenerator.sample_unit_interval (g : RandomGenerator) : ℚ × RandomGenerator :=
  (g.engine g.seed g.drawn, { g with drawn := g.drawn + 1 })

/-- Modelled from the spec: `open_unit_interval() -> f64 ∈ (0, 1]`, "obtained as
`1 − unit_interval()`" since the generator only has the half-open primitive. -/
def RandomGenerator.open_unit_interval (g : RandomGenerator) : ℚ × RandomGenerator :=
  let (u, g1) := g.sample_unit_interval
  (1 - u, g1)

/-- The range contract of the unit-interval sampler: every variate lies in `[0, 1)`. -/
def RandomGenerator.InRange (g : RandomGenerator) : Prop :=
  ∀ s n, 0 ≤ g.engine s n ∧ g.engine s n < 1

/-- Modelled from the spec: `reseed(seed: u64)`; the seed is stored as an unsigned
64-bit value and the engine restarts from it. -/
def RandomGenerator.reseed_generator (g : RandomGenerator) (seed : Nat) : RandomGenerator :=
  { g with seed := seed % 2 ^ 64, drawn := 0 }

/-- Modelled from the spec: `seed() -> u64`, the seed the engine was last seeded with. -/
def RandomGenerator.get_seed (g : RandomGenerator) : Nat := g.seed

/-! ## Event rate tree (modelled) -/

/-- Modelled from the spec: the nodes of the `EventRateTree` of `event_rate_tree.hpp`
(not among the sources), a complete binary tree whose nodes store `subtree_rate`.
A leaf slot holds its event, or no event when the slot is unused. -/
inductive RateNode (E : Type) where
  | leaf (event : Option E) (rate : ℚ)
  | node (rate : ℚ) (left right : RateNode E)
  deriving DecidableEq

/-- The stored `subtree_rate[v]`. -/
def RateNode.rate {E : Type} : RateNode E → ℚ
  | .leaf _ r => r
  | .node r _ _ => r

/-- Modelled from the spec: a complete tree of the given depth over the leaf slots,
"unused leaf slots are permanently pinned to rate 0", internal rates set by one
post-order pass. -/
def RateNode.build {E : Type} : Nat → List (Option E × ℚ) → RateNode E
  | 0, [] => .leaf none 0
  | 0, (ev, r) :: _ => .leaf ev r
  | d + 1, slots =>
    let l := RateNode.build d (slots.take (2 ^ d))
    let r := RateNode.build d (slots.drop (2 ^ d))
    .node (l.rate + r.rate) l r

/-- The content of leaf slot `i` of a tree of depth `d`. -/
def RateNode.leafAt {E : Type} : RateNode E → Nat → Nat → Option E × ℚ
  | .leaf ev r, _, _ => (ev, r)
  | .node _ _ _, 0, _ => (none, 0)
  | .node _ l r, d + 1, i => if i < 2 ^ d then l.leafAt d i else r.leafAt d (i - 2 ^ d)

/-- Modelled from the spec: "writes `r_new` into the leaf, then propagates to every
ancestor", each ancestor recomputed as the sum of its two children. -/
def RateNode.update {E : Type} : RateNode E → Nat → Nat → ℚ → RateNode E
  | .leaf ev _, _, _, r_new => .leaf ev r_new
  | .node s l r, 0, _, _ => .node s l r
  | .node _ l r, d + 1, i, r_new =>
    if i < 2 ^ d then
      let l1 := l.update d i r_new
      .node (l1.rate + r.rate) l1 r
    else
      let r1 := r.update d (i - 2 ^ d) r_new
      .node (l.rate + r1.rate) l r1

/-- Modelled from the spec: "descend from root; at each internal node with
left-subtree rate `L`, if `q < L` go left, else `q ← q − L` and go right; return
the event at the reached leaf" (`none` when the reached slot is unused). -/
def RateNode.descend {E : Type} : RateNode E → ℚ → Option E
  | .leaf ev _, _ => ev
  | .node _ l r, q => if q < l.rate then l.descend q else r.descend (q - l.rate)

/-- Modelled from the spec: "the rightmost leaf whose subtree rate is strictly
positive", the leaf a query snaps to when it lands in an unused slot. -/
def RateNode.rightmost_positive {E : Type} : RateNode E → Option E
  | .leaf ev r => if 0 < r then ev else none
  | .node _ l r =>
    match r.rightmost_positive with
    | some e => some e
    | none => l.rightmost_positive

/-- Modelled from the spec: the `EventRateTree`. `order[i]` is the event of leaf
slot `i`; the tree has `2 ^ depth` leaf slots. -/
structure EventRateTree (E : Type) where
  order : List E
  depth : Nat
  root : RateNode E
  deriving DecidableEq

/-- Modelled from the spec: `position[e]`, the leaf slot of event `e`
(`none` for an unknown event). -/
def position {E : Type} [DecidableEq E] : List E → E → Option Nat
  | [], _ => none
  | x :: xs, e => if e = x then some 0 else (position xs e).map (· + 1)

/-- The smallest `d` at or above the given start with `n ≤ 2 ^ d`, searched upward. -/
def leaf_depth_from (n : Nat) : Nat → Nat → Nat
  | 0, d => d
  | fuel + 1, d => if n ≤ 2 ^ d then d else leaf_depth_from n fuel (d + 1)

/-- Modelled from the spec: the depth of the tree, `M = 2 ^ depth` being "the
smallest power of two ≥ N". -/
def leaf_depth (n : Nat) : Nat := leaf_depth_from n n 0

/-- Modelled from the spec: construction from the ordered IDs and their initial
rates. "Fails if `ids` is empty, if any rate is negative or non-finite, or if `ids`
contains duplicates." -/
def EventRateTree.construct {E : Type} [DecidableEq E] (ids : List E) (rates : List ℚ) :
    Except Error (EventRateTree E) :=
  if ids = [] then .error .EmptyEventSet
  else if rates.any (fun r => decide (r < 0)) then .error .InvalidRate
  else if ¬ ids.Nodup then .error .DuplicateEvent
  else
    let slots := (ids.zip rates).map (fun p => (some p.1, p.2))
    .ok { order := ids, depth := leaf_depth ids.length,
          root := RateNode.build (leaf_depth ids.length) slots }

/-- Modelled from the spec: `total_rate() -> r`, "returns `subtree_rate[root]`". -/
def EventRateTree.total_rate {E : Type} (t : EventRateTree E) : ℚ := t.root.rate

/-- Modelled from the spec: `get_rate(e) -> r`, the leaf rate of `e`; "fails if `e`
is unknown". -/
def EventRateTree.get_rate {E : Type} [DecidableEq E] (t : EventRateTree E) (e : E) :
    Except Error ℚ :=
  match position t.order e with
  | none => .error .UnknownEvent
  | some i => .ok (t.root.leafAt t.depth i).2

/-- Modelled from the spec: `update_rate(e, r_new)`; "fails if `e` unknown or `r_new`
negative/non-finite", and a failed update does not touch the tree. -/
def EventRateTree.update_rate {E : Type} [DecidableEq E] (t : EventRateTree E) (e : E)
    (r_new : ℚ) : Except Error (EventRateTree E) :=
  match position t.order e with
  | none => .error .UnknownEvent
  | some i =>
    if r_new < 0 then .error .InvalidRate
    else .ok { t with root := t.root.update t.depth i r_new }

/-- Modelled from the spec: `query(q) -> e`, the inverse-CDF descent. A query that
lands in an unused slot snaps to the rightmost leaf of strictly positive rate; when
there is none the specification leaves the result undefined. -/
def EventRateTree.query_tree {E : Type} (t : EventRateTree E) (q : ℚ) : Except Error E :=
  match t.root.descend q with
  | some e => .ok e
  | none =>
    match t.root.rightmost_positive with
    | some e => .ok e
    | none => .error .QueryUndefined

/-! ## Impact table -/

/-- The oracle type `std::map<EventIDType, std::vector<EventIDType>>`, as an
association list with at most one entry per key. -/
abbrev ImpactTable (E : Type) := List (E × List E)

/-- The entry of a key, as `std::map::find`. -/
def ImpactTable.find {E : Type} [DecidableEq E] : ImpactTable E → E → Option (List E)
  | [], _ => none
  | (k, v) :: rest, e => if e = k then some v else ImpactTable.find rest e

/-- Checked access `std::map::at`: throws `std::out_of_range` for a missing key. -/
def ImpactTable.at {E : Type} [DecidableEq E] (m : ImpactTable E) (e : E) :
    Except Error (List E) :=
  match ImpactTable.find m e with
  | some v => .ok v
  | none => .error .out_of_range

/-- Subscript `std::map::operator[]` used as a statement: a missing key is inserted
with a default-constructed (empty) vector, a present key is left as it is. -/
def ImpactTable.index {E : Type} [DecidableEq E] (m : ImpactTable E) (e : E) :
    ImpactTable E :=
  match ImpactTable.find m e with
  | some _ => m
  | none => m ++ [(e, [])]

/-- The function object `GetImpactFromTable`: it holds a reference to an impact
table. -/
structure GetImpactFromTable (E : Type) where
  impact_table : ImpactTable E

/-- The call operator `GetImpactFromTable::operator()`: `impact_table.at(event_id)`. -/
def GetImpactFromTable.call {E : Type} [DecidableEq E] (g : GetImpactFromTable E)
    (event_id : E) : Except Error (List E) :=
  ImpactTable.at g.impact_table event_id

/-- The private member `fill_impact_table`: works on its by-value copy of the table,
subscripting it with every event ID of the list. -/
def fill_impact_table {E : Type} [DecidableEq E] (table_to_fill : ImpactTable E)
    (event_id_list : List E) : ImpactTable E :=
  event_id_list.foldl ImpactTable.index table_to_fill

/-! ## Selector base class (modelled) -/

/-- The time step `−ln(u) / R` of one step, held by its two operands since the
logarithm of a rational is not rational: `variate` is `u` and `total_rate` is `R`. -/
structure TimeStep where
  variate : ℚ
  total_rate : ℚ
  deriving DecidableEq

/-- Modelled from the spec: `EventSelectorBase::calculate_rates` of
`event_selector.hpp` (not among the sources): "invoke the rate calculator once per
event ID, in the order given". The calculator is a state machine: a call returns
the rate and the calculator state after the call. -/
def calculate_rates {C E : Type} (rate_calculator : C → E → ℚ × C) :
    C → List E → List ℚ × C
  | c, [] => ([], c)
  | c, e :: rest =>
    let (r, c1) := rate_calculator c e
    let (rs, c2) := calculate_rates rate_calculator c1 rest
    (r :: rs, c2)

/-- Modelled from the spec: `EventSelectorBase::calculate_time_step` of
`event_selector.hpp` (not among the sources): "draw `u₁ ∈ (0, 1]` from the random
source's unit-interval sampler and set `Δt = −ln(u₁) / R`". -/
def calculate_time_step (g : RandomGenerator) (total_rate : ℚ) : TimeStep × RandomGenerator :=
  let (u1, g1) := g.open_unit_interval
  ({ variate := u1, total_rate := total_rate }, g1)

/-! ## The selector -/

/-- The state of a `RejectionFreeEventSelector`: the members of the base class (the
rate calculator with its current state, the random generator) and the four members
of the class itself. `impacted_events_ptr` is `none` for `nullptr` and `some v` when
it points to the vector `v`. -/
structure RejectionFreeEventSelector (C E : Type) where
  rate_calculator : C → E → ℚ × C
  calculator_state : C
  random_generator : RandomGenerator
  event_rate_tree : EventRateTree E
  impact_table : ImpactTable E
  impacted_events_ptr : Option (List E)
  get_impact : E → Except Error (List E)

namespace RejectionFreeEventSelector

variable {C E : Type} [DecidableEq E]

/-- The constructor taking an impact table. The member initialisers run in
declaration order, then the body. In the initialiser `get_impact(impact_table)` the
name `impact_table` denotes the constructor parameter (a parameter hides the member
of the same name inside the initialiser list), so the function object refers to the
caller's table, and the completed copy only initialises the member. -/
def construct_table (rate_calculator : C → E → ℚ × C) (calculator_state : C)
    (event_id_list : List E) (impact_table : ImpactTable E)
    (random_generator : RandomGenerator) :
    Except Error (RejectionFreeEventSelector C E) :=
  let (rates, c1) := calculate_rates rate_calculator calculator_state event_id_list
  match EventRateTree.construct event_id_list rates with
  | .error err => .error err
  | .ok tree =>
    let impact_table_member := fill_impact_table impact_table event_id_list
    let get_impact_member : GetImpactFromTable E := { impact_table := impact_table }
    if event_id_list.isEmpty then
      .error (.runtime_error "Event ID list must not be empty.")
    else
      .ok { rate_calculator := rate_calculator, calculator_state := c1,
            random_generator := random_generator, event_rate_tree := tree,
            impact_table := impact_table_member, impacted_events_ptr := none,
            get_impact := get_impact_member.call }

/-- The constructor taking a get-impact function object. -/
def construct_function (rate_calculator : C → E → ℚ × C) (calculator_state : C)
    (event_id_list : List E) (get_impact_f : E → List E)
    (random_generator : RandomGenerator) :
    Except Error (RejectionFreeEventSelector C E) :=
  let (rates, c1) := calculate_rates rate_calculator calculator_state event_id_list
  match EventRateTree.construct event_id_list rates with
  | .error err => .error err
  | .ok tree =>
    if event_id_list.isEmpty then
      .error (.runtime_error "Event ID list must not be empty.")
    else
      .ok { rate_calculator := rate_calculator, calculator_state := c1,
            random_generator := random_generator, event_rate_tree := tree,
            impact_table := [], impacted_events_ptr := none,
            get_impact := fun e => .ok (get_impact_f e) }

/-- The loop of `update_impacted_event_rates`: for each event of the list, in order,
the calculator is called and the result written to the tree. A failed update ends
the loop with the tree as the earlier iterations left it. -/
def refresh_loop (rate_calculator : C → E → ℚ × C) :
    List E → EventRateTree E → C → Except Error Unit × EventRateTree E × C
  | [], t, c => (.ok (), t, c)
  | event_id :: rest, t, c =>
    let (r, c1) := rate_calculator c event_id
    match t.update_rate event_id r with
    | .error err => (.error err, t, c1)
    | .ok t1 => refresh_loop rate_calculator rest t1 c1

/-- The private member `update_impacted_event_rates`. -/
def update_impacted_event_rates (s : RejectionFreeEventSelector C E) :
    Except Error Unit × RejectionFreeEventSelector C E :=
  match s.impacted_events_ptr with
  | none => (.ok (), s)
  | some impacted =>
    match refresh_loop s.rate_calculator impacted s.event_rate_tree s.calculator_state with
    | (.error err, t, c) =>
      (.error err, { s with event_rate_tree := t, calculator_state := c })
    | (.ok _, t, c) =>
      (.ok (), { s with event_rate_tree := t, calculator_state := c,
                        impacted_events_ptr := none })

/-- The private member `set_impacted_events`; the `assert` is a failure of its own. -/
def set_impacted_events (s : RejectionFreeEventSelector C E) (accepted_event_id : E) :
    Except Error Unit × RejectionFreeEventSelector C E :=
  if s.impacted_events_ptr.isSome then (.error .assertion_failed, s)
  else
    match s.get_impact accepted_event_id with
    | .error err => (.error err, s)
    | .ok impacted => (.ok (), { s with impacted_events_ptr := some impacted })

/-- The member `select_event`: refresh, total rate, time step, query value, tree
query, impact staging, in the order of the statements of the source. -/
def select_event (s : RejectionFreeEventSelector C E) :
    Except Error (E × TimeStep) × RejectionFreeEventSelector C E :=
  match update_impacted_event_rates s with
  | (.error err, s1) => (.error err, s1)
  | (.ok _, s1) =>
    let _total_rate := s1.event_rate_tree.total_rate
    let (time_step, g1) := calculate_time_step s1.random_generator _total_rate
    let (u, g2) := g1.sample_unit_interval
    let query_value := _total_rate * u
    let s2 := { s1 with random_generator := g2 }
    match s2.event_rate_tree.query_tree query_value with
    | .error err => (.error err, s2)
    | .ok selected_event_id =>
      match set_impacted_events s2 selected_event_id with
      | (.error err, s3) => (.error err, s3)
      | (.ok _, s3) => (.ok (selected_event_id, time_step), s3)

/-- The member `total_rate() const`: the value read and the state it leaves. -/
def total_rate (s : RejectionFreeEventSelector C E) :
    ℚ × RejectionFreeEventSelector C E :=
  (s.event_rate_tree.total_rate, s)

/-- The member `get_rate(event_id) const`: the value read and the state it leaves. -/
def get_rate (s : RejectionFreeEventSelector C E) (event_id : E) :
    Except Error ℚ × RejectionFreeEventSelector C E :=
  (s.event_rate_tree.get_rate event_id, s)

end RejectionFreeEventSelector

/-! ## Invariants of the tree -/

/-- The tree has the fixed topology of a complete binary tree of the given depth. -/
def RateNode.complete {E : Type} : RateNode E → Nat → Bool
  | .leaf _ _, 0 => true
  | .leaf _ _, _ + 1 => false
  | .node _ _ _, 0 => false
  | .node _ l r, d + 1 => l.complete d && r.complete d

/-- Every internal node stores the sum of the rates stored in its two children. -/
def RateNode.consistent {E : Type} : RateNode E → Bool
  | .leaf _ _ => true
  | .node s l r => decide (s = l.rate + r.rate) && l.consistent && r.consistent

/-- Modelled from the spec: the predicate `check_invariants()` over invariants 1 to 4
of the data model: the IDs are distinct and fill the first leaf slots in order, the
other slots are unused and pinned to rate 0, every internal rate is the sum of its
children, no rate is negative, and the topology is the complete tree. -/
def EventRateTree.check_invariants {E : Type} [DecidableEq E] (t : EventRateTree E) : Prop :=
  t.order ≠ [] ∧ t.order.Nodup ∧ t.order.length ≤ 2 ^ t.depth ∧
  t.root.complete t.depth = true ∧ t.root.consistent = true ∧
  ∀ i, i < 2 ^ t.depth →
    (t.root.leafAt t.depth i).1 = t.order[i]? ∧ 0 ≤ (t.root.leafAt t.depth i).2 ∧
    (t.order.length ≤ i → (t.root.leafAt t.depth i).2 = 0)

instance EventRateTree.decidable_check_invariants {E : Type} [DecidableEq E]
    (t : EventRateTree E) : Decidable t.check_invariants := by
  unfold EventRateTree.check_invariants; infer_instance

/-- The stored rate of an event as a plain number (0 for an unknown event). -/
def EventRateTree.rate_of {E : Type} [DecidableEq E] (t : EventRateTree E) (e : E) : ℚ :=
  match t.get_rate e with
  | .ok r => r
  | .error _ => 0

/-- The sum of the stored rates of the first `k` events in construction order. -/
def EventRateTree.cumulative_rate {E : Type} [DecidableEq E] (t : EventRateTree E)
    (k : Nat) : ℚ :=
  ((t.order.take k).map t.rate_of).sum

/-- A rate calculator instrumented with the log of its invocations: every call appends
the event ID it is called with. -/
def logged {C E : Type} (rate_calculator : C → E → ℚ × C) :
    C × List E → E → ℚ × (C × List E) :=
  fun cl e => ((rate_calculator cl.1 e).1, ((rate_calculator cl.1 e).2, cl.2 ++ [e]))

/-- The states a selector can be brought to from the state `s0`: by calls of
`select_event`, whatever their outcome, by calls of `total_rate` and of `get_rate`, and
by the caller changing the state that the rate calculator reads. -/
inductive Reachable {C E : Type} [DecidableEq E] (s0 : RejectionFreeEventSelector C E) :
    RejectionFreeEventSelector C E → Prop where
  | start : Reachable s0 s0
  | select_event (s : RejectionFreeEventSelector C E) :
      Reachable s0 s → Reachable s0 (RejectionFreeEventSelector.select_event s).2
  | total_rate (s : RejectionFreeEventSelector C E) :
      Reachable s0 s → Reachable s0 (RejectionFreeEventSelector.total_rate s).2
  | get_rate (s : RejectionFreeEventSelector C E) (e : E) :
      Reachable s0 s → Reachable s0 (RejectionFreeEventSelector.get_rate s e).2
  | calculator (s : RejectionFreeEventSelector C E) (c : C) :
      Reachable s0 s → Reachable s0 { s with calculator_state := c }

/-! ## Scenarios of the specification -/

/-- Event IDs of the concrete scenarios. -/
inductive Ev where
  | A | B | C | X | Y | Z
  deriving DecidableEq, Fintype

/-- A random generator that delivers the listed unit-interval variates in order, and
0 once the list is used up. -/
def stream_generator (us : List ℚ) : RandomGenerator :=
  { engine := fun _ n => us.getD n 0, seed := 0, drawn := 0 }

/-- The rates of scenario S1: `A ↦ 1`, `B ↦ 2`, `C ↦ 1`. -/
def s1_rates : Unit → Ev → ℚ × Unit := fun c e =>
  (match e with
    | .A => 1
    | .B => 2
    | .C => 1
    | _ => 0, c)

/-- Scenario S1 built with the impact-table constructor and the empty impact map; the
event-draw variates are 0.25 on the first call and 0.75 on the second. -/
def s1_table : Except Error (RejectionFreeEventSelector Unit Ev) :=
  RejectionFreeEventSelector.construct_table s1_rates () [Ev.A, Ev.B, Ev.C] []
    (stream_generator [1/2, 1/4, 1/2, 3/4])

/-- Scenario S1 built with the impact-function constructor, the function returning the
empty list for every event. -/
def s1_function : Except Error (RejectionFreeEventSelector Unit Ev) :=
  RejectionFreeEventSelector.construct_function s1_rates () [Ev.A, Ev.B, Ev.C] (fun _ => [])
    (stream_generator [1/2, 1/4, 1/2, 3/4])

/-- The selector of scenario S1 with the impact function, right after construction. -/
def s1_initial : RejectionFreeEventSelector Unit Ev :=
  s1_function.toOption.get (by decide!)

/-- The rate calculator of scenario S3. Its state is the state of the simulated system
as the caller keeps it: `A` has rate 1; `B` has rate 1 in state 0 and rate 5 from
state 1 on. A call does not change the state. -/
def s3_rates : Nat → Ev → ℚ × Nat := fun w e =>
  (match e with
    | .A => 1
    | .B => if 1 ≤ w then 5 else 1
    | _ => 0, w)

/-- Scenario S3 as constructed: IDs `[A, B]`, impact map `{A: [B]}`, system state 0. -/
def s3_constructed : Except Error (RejectionFreeEventSelector Nat Ev) :=
  RejectionFreeEventSelector.construct_table s3_rates 0 [Ev.A, Ev.B] [(Ev.A, [Ev.B])]
    (stream_generator [1/2, 1/4, 1/2, 1/12])

/-- The selector of scenario S3 right after construction. -/
def s3_initial : RejectionFreeEventSelector Nat Ev :=
  s3_constructed.toOption.get (by decide!)

/-- The selector of scenario S3 after the first `select_event` (which returns `A`) and
after the caller has moved the simulated system to state 1, where `B` has rate 5. -/
def s3_dirty : RejectionFreeEventSelector Nat Ev :=
  { (RejectionFreeEventSelector.select_event s3_initial).2 with calculator_state := 1 }

/-- The configuration of scenario S3 with an event-draw variate of 0.75, so that the
first `select_event` selects `B`, an event that is not a key of the caller's map. -/
def c1_constructed : Except Error (RejectionFreeEventSelector Nat Ev) :=
  RejectionFreeEventSelector.construct_table s3_rates 0 [Ev.A, Ev.B] [(Ev.A, [Ev.B])]
    (stream_generator [1/2, 3/4])

/-- An impact function that returns for `A` the list `[B, Z]`, whose second element
is not an event of the tree, and the empty list for every other event. -/
def impact_with_unknown : Ev → List Ev := fun e =>
  match e with
  | .A => [Ev.B, Ev.Z]
  | _ => []

/-- IDs `[A, B]` with the rates of scenario S3 and the impact function
`impact_with_unknown`, as constructed. -/
def s8_constructed : Except Error (RejectionFreeEventSelector Nat Ev) :=
  RejectionFreeEventSelector.construct_function s3_rates 0 [Ev.A, Ev.B] impact_with_unknown
    (stream_generator [1/2, 1/4, 1/2, 1/12])

/-- The selector of `s8_constructed` right after construction. -/
def s8_initial : RejectionFreeEventSelector Nat Ev :=
  s8_constructed.toOption.get (by decide!)

/-- The selector of `s8_constructed` after the first `select_event` (which returns `A`
and stages `[B, Z]`) and after the caller has moved the system to state 1. -/
def s8_dirty : RejectionFreeEventSelector Nat Ev :=
  { (RejectionFreeEventSelector.select_event s8_initial).2 with calculator_state := 1 }

/-- Scenario S2 as constructed: IDs `[X, Y]`, both of rate 0. -/
def s2_constructed : Except Error (RejectionFreeEventSelector Unit Ev) :=
  RejectionFreeEventSelector.construct_function (fun c _ => (0, c)) () [Ev.X, Ev.Y]
    (fun _ => []) (stream_generator [1/2, 1/2])

/-- The selector of scenario S2 right after construction. -/
def s2_initial : RejectionFreeEventSelector Unit Ev :=
  s2_constructed.toOption.get (by decide!)

/-- The selector of scenario S1 (impact function returning the empty list) with a
random generator whose first unit-interval variate, the one of the time step, is 0. -/
def c7_initial : RejectionFreeEventSelector Unit Ev :=
  (RejectionFreeEventSelector.construct_function s1_rates () [Ev.A, Ev.B, Ev.C]
    (fun _ => []) (stream_generator [0, 1/4])).toOption.get (by decide!)

/-- Scenario S3 with the calculator instrumented by the log of its invocations, after
the first `select_event` (which returns `A` and stages `[B]`). -/
def s14_dirty : RejectionFreeEventSelector (Nat × List Ev) Ev :=
  (RejectionFreeEventSelector.select_event
    ((RejectionFreeEventSelector.construct_table (logged s3_rates) (0, []) [Ev.A, Ev.B]
      [(Ev.A, [Ev.B])] (stream_generator [1/2, 1/4])).toOption.get (by decide!))).2

/-! ## Lemmas on the tree -/

theorem RateNode.complete_update {E : Type} (t : RateNode E) (d i : Nat) (r : ℚ) :
    (t.update d i r).complete d = t.complete d := by
  induction d generalizing t i with
  | zero => cases t <;> simp [RateNode.update, RateNode.complete]
  | succ d ih =>
    cases t with
    | leaf ev s => simp [RateNode.update, RateNode.complete]
    | node s l rt =>
      by_cases h : i < 2 ^ d <;> simp [RateNode.update, RateNode.complete, h, ih]

theorem RateNode.leafAt_update {E : Type} (t : RateNode E) (d i j : Nat) (r : ℚ)
    (hc : t.complete d = true) (hi : i < 2 ^ d) (hj : j < 2 ^ d) :
    (t.update d i r).leafAt d j = if j = i then ((t.leafAt d i).1, r) else t.leafAt d j := by
  induction d generalizing t i j with
  | zero =>
    cases t with
    | leaf ev s =>
      have hi0 : i = 0 := by simpa using hi
      have hj0 : j = 0 := by simpa using hj
      simp [RateNode.update, RateNode.leafAt, hi0, hj0]
    | node s l rt => simp [RateNode.complete] at hc
  | succ d ih =>
    cases t with
    | leaf ev s => simp [RateNode.complete] at hc
    | node s l rt =>
      simp only [RateNode.complete, Bool.and_eq_true] at hc
      have hp : 2 ^ (d + 1) = 2 ^ d + 2 ^ d := by ring
      by_cases h : i < 2 ^ d
      · by_cases h2 : j < 2 ^ d
        · simp [RateNode.update, RateNode.leafAt, h, h2, ih l i j hc.1 h h2]
        · have hne : j ≠ i := by omega
          simp [RateNode.update, RateNode.leafAt, h, h2, hne]
      · by_cases h2 : j < 2 ^ d
        · have hne : j ≠ i := by omega
          simp [RateNode.update, RateNode.leafAt, h, h2, hne]
        · have e1 := ih rt (i - 2 ^ d) (j - 2 ^ d) hc.2 (by omega) (by omega)
          have hiff : (j - 2 ^ d = i - 2 ^ d) ↔ (j = i) := by omega
          simp [RateNode.update, RateNode.leafAt, h, h2, e1, hiff]

theorem RateNode.consistent_update {E : Type} (t : RateNode E) (d i : Nat) (r : ℚ)
    (hc : t.complete d = true) (hs : t.consistent = true) :
    (t.update d i r).consistent = true := by
  induction d generalizing t i with
  | zero => cases t <;> simp_all [RateNode.update, RateNode.consistent, RateNode.complete]
  | succ d ih =>
    cases t with
    | leaf ev s => simp [RateNode.update, RateNode.consistent]
    | node s l rt =>
      simp only [RateNode.complete, Bool.and_eq_true] at hc
      simp only [RateNode.consistent, Bool.and_eq_true, decide_eq_true_eq] at hs
      by_cases h : i < 2 ^ d
      · simp [RateNode.update, RateNode.consistent, h, ih l i hc.1 hs.1.2, hs.2]
      · simp [RateNode.update, RateNode.consistent, h, ih rt (i - 2 ^ d) hc.2 hs.2, hs.1.2]

theorem RateNode.rate_eq_sum {E : Type} (t : RateNode E) (d : Nat)
    (hc : t.complete d = true) (hs : t.consistent = true) :
    t.rate = ∑ i in Finset.range (2 ^ d), (t.leafAt d i).2 := by
  induction d generalizing t with
  | zero =>
    cases t with
    | leaf ev s => simp [RateNode.rate, RateNode.leafAt]
    | node s l rt => simp [RateNode.complete] at hc
  | succ d ih =>
    cases t with
    | leaf ev s => simp [RateNode.complete] at hc
    | node s l rt =>
      simp only [RateNode.complete, Bool.and_eq_true] at hc
      simp only [RateNode.consistent, Bool.and_eq_true, decide_eq_true_eq] at hs
      have hp : 2 ^ (d + 1) = 2 ^ d + 2 ^ d := by ring
      rw [hp, Finset.sum_range_add]
      have e1 : ∑ i in Finset.range (2 ^ d), ((RateNode.node s l rt).leafAt (d + 1) i).2
          = ∑ i in Finset.range (2 ^ d), (l.leafAt d i).2 := by
        apply Finset.sum_congr rfl
        intro i hi
        simp [RateNode.leafAt, Finset.mem_range.mp hi]
      have e2 : ∑ i in Finset.range (2 ^ d), ((RateNode.node s l rt).leafAt (d + 1) (2 ^ d + i)).2
          = ∑ i in Finset.range (2 ^ d), (rt.leafAt d i).2 := by
        apply Finset.sum_congr rfl
        intro i _
        simp [RateNode.leafAt]
      rw [e1, e2, ← ih l hc.1 hs.1.2, ← ih rt hc.2 hs.2]
      simpa [RateNode.rate] using hs.1.1



theorem RateNode.prefix_left {E : Type} (s : ℚ) (l rt : RateNode E) (d k : Nat) (hk : k ≤ 2 ^ d) :
    ∑ i in Finset.range k, ((RateNode.node s l rt).leafAt (d + 1) i).2
      = ∑ i in Finset.range k, (l.leafAt d i).2 := by
  apply Finset.sum_congr rfl
  intro i hi
  have : i < 2 ^ d := lt_of_lt_of_le (Finset.mem_range.mp hi) hk
  simp [RateNode.leafAt, this]

theorem RateNode.prefix_right {E : Type} (s : ℚ) (l rt : RateNode E) (d k : Nat)
    (hc : l.complete d = true) (hs : l.consistent = true) :
    ∑ i in Finset.range (2 ^ d + k), ((RateNode.node s l rt).leafAt (d + 1) i).2
      = l.rate + ∑ i in Finset.range k, (rt.leafAt d i).2 := by
  rw [Finset.sum_range_add, RateNode.prefix_left s l rt d (2 ^ d) le_rfl,
    ← RateNode.rate_eq_sum l d hc hs]
  congr 1
  apply Finset.sum_congr rfl
  intro i _
  simp [RateNode.leafAt]

theorem RateNode.descend_interval {E : Type} (t : RateNode E) (d : Nat) (q : ℚ)
    (hc : t.complete d = true) (hs : t.consistent = true) (h0 : 0 ≤ q) (h1 : q < t.rate) :
    ∃ k, k < 2 ^ d ∧ t.descend q = (t.leafAt d k).1 ∧
      ∑ i in Finset.range k, (t.leafAt d i).2 ≤ q ∧
      q < ∑ i in Finset.range (k + 1), (t.leafAt d i).2 := by
  induction d generalizing t q with
  | zero =>
    cases t with
    | leaf ev s =>
      refine ⟨0, by simp, ?_, ?_, ?_⟩
      · simp [RateNode.descend, RateNode.leafAt]
      · simpa using h0
      · simpa [RateNode.leafAt, RateNode.rate] using h1
    | node s l rt => simp [RateNode.complete] at hc
  | succ d ih =>
    cases t with
    | leaf ev s => simp [RateNode.complete] at hc
    | node s l rt =>
      simp only [RateNode.complete, Bool.and_eq_true] at hc
      simp only [RateNode.consistent, Bool.and_eq_true, decide_eq_true_eq] at hs
      have hp : 2 ^ (d + 1) = 2 ^ d + 2 ^ d := by ring
      have hrate : (RateNode.node s l rt).rate = l.rate + rt.rate := by
        simpa [RateNode.rate] using hs.1.1
      by_cases h : q < l.rate
      · obtain ⟨k, hk, hq, hlo, hhi⟩ := ih l q hc.1 hs.1.2 h0 h
        refine ⟨k, by omega, ?_, ?_, ?_⟩
        · simp [RateNode.descend, RateNode.leafAt, h, hk, hq]
        · rw [RateNode.prefix_left s l rt d k (le_of_lt hk)]; exact hlo
        · rw [RateNode.prefix_left s l rt d (k + 1) hk]; exact hhi
      · have h0r : 0 ≤ q - l.rate := by linarith [not_lt.mp h]
        have h1r : q - l.rate < rt.rate := by rw [hrate] at h1; linarith
        obtain ⟨k, hk, hq, hlo, hhi⟩ := ih rt (q - l.rate) hc.2 hs.2 h0r h1r
        refine ⟨2 ^ d + k, by omega, ?_, ?_, ?_⟩
        · simp [RateNode.descend, RateNode.leafAt, h, hq]
        · rw [RateNode.prefix_right s l rt d k hc.1 hs.1.2]; linarith
        · rw [show 2 ^ d + k + 1 = 2 ^ d + (k + 1) by ring,
            RateNode.prefix_right s l rt d (k + 1) hc.1 hs.1.2]; linarith

theorem position_some {E : Type} [DecidableEq E] (order : List E) (e : E) (i : Nat)
    (h : position order e = some i) : order[i]? = some e := by
  induction order generalizing i with
  | nil => simp [position] at h
  | cons x xs ih =>
    by_cases hx : e = x
    · simp [position, hx] at h
      subst h; simp [hx]
    · simp only [position, hx, if_false, Option.map_eq_some'] at h
      obtain ⟨j, hj, rfl⟩ := h
      simpa using ih j hj

theorem position_none {E : Type} [DecidableEq E] (order : List E) (e : E) :
    position order e = none ↔ e ∉ order := by
  induction order with
  | nil => simp [position]
  | cons x xs ih =>
    by_cases hx : e = x
    · simp [position, hx]
    · simp [position, hx, ih]

theorem position_getElem {E : Type} [DecidableEq E] (order : List E) (hn : order.Nodup)
    (i : Nat) (hi : i < order.length) : position order order[i] = some i := by
  induction order generalizing i with
  | nil => simp at hi
  | cons x xs ih =>
    rw [List.nodup_cons] at hn
    cases i with
    | zero => simp [position]
    | succ j =>
      have hj : j < xs.length := by simpa using hi
      have hne : xs[j] ≠ x := by
        intro h; exact hn.1 (h ▸ List.getElem_mem hj)
      simp [position, hne, ih hn.2 j hj]



theorem position_lt {E : Type} [DecidableEq E] (order : List E) (e : E) (i : Nat)
    (h : position order e = some i) : i < order.length := by
  have := position_some order e i h
  exact (List.getElem?_eq_some.mp this).1

theorem position_mem {E : Type} [DecidableEq E] (order : List E) (e : E) (he : e ∈ order) :
    ∃ i, position order e = some i := by
  cases h : position order e with
  | none => exact absurd he ((position_none order e).mp h)
  | some i => exact ⟨i, rfl⟩

theorem position_inj {E : Type} [DecidableEq E] (order : List E) (e e1 : E) (i : Nat)
    (h : position order e = some i) (h1 : position order e1 = some i) : e = e1 := by
  have a := position_some order e i h
  have b := position_some order e1 i h1
  rw [a] at b
  exact Option.some.inj b

theorem EventRateTree.update_rate_error {E : Type} [DecidableEq E] (t : EventRateTree E) (e : E)
    (r : ℚ) (err : Error) (h : t.update_rate e r = .error err) :
    (e ∉ t.order ∧ err = .UnknownEvent) ∨ (e ∈ t.order ∧ r < 0 ∧ err = .InvalidRate) := by
  unfold EventRateTree.update_rate at h
  cases hp : position t.order e with
  | none =>
    rw [hp] at h
    left
    exact ⟨(position_none _ _).mp hp, by cases h; rfl⟩
  | some i =>
    rw [hp] at h
    right
    have hmem : e ∈ t.order := by
      by_contra hne
      rw [(position_none _ _).mpr hne] at hp
      cases hp
    by_cases hr : r < 0
    · simp [hr] at h
      exact ⟨hmem, hr, h.symm⟩
    · simp [hr] at h

theorem EventRateTree.update_rate_ok {E : Type} [DecidableEq E] (t : EventRateTree E) (e : E)
    (r : ℚ) (hv : t.check_invariants) (he : e ∈ t.order) (hr : 0 ≤ r) :
    ∃ t1, t.update_rate e r = .ok t1 ∧ t1.check_invariants ∧ t1.order = t.order ∧
      t1.depth = t.depth ∧
      ∀ e1, t1.get_rate e1 = if e1 = e then .ok r else t.get_rate e1 := by
  obtain ⟨i, hi⟩ := position_mem t.order e he
  obtain ⟨hne, hnd, hlen, hc, hs, hleaf⟩ := hv
  have hil : i < t.order.length := position_lt _ _ _ hi
  have hid : i < 2 ^ t.depth := lt_of_lt_of_le hil hlen
  refine ⟨{ t with root := t.root.update t.depth i r }, ?_, ?_, rfl, rfl, ?_⟩
  · simp [EventRateTree.update_rate, hi, not_lt.mpr hr]
  · refine ⟨hne, hnd, hlen, ?_, ?_, ?_⟩
    · simpa [RateNode.complete_update] using hc
    · exact RateNode.consistent_update _ _ _ _ hc hs
    · intro j hj
      have := RateNode.leafAt_update t.root t.depth i j r hc hid hj
      simp only [this]
      by_cases hji : j = i
      · subst hji
        simp only [if_true]
        exact ⟨(hleaf j hj).1, hr, fun h => absurd hil (not_lt.mpr h)⟩
      · simp only [hji, if_false]
        exact hleaf j hj
  · intro e1
    by_cases h1 : e1 = e
    · subst h1
      simp [EventRateTree.get_rate, hi, RateNode.leafAt_update t.root t.depth i i r hc hid hid]
    · simp only [h1, if_false, EventRateTree.get_rate]
      cases hp : position t.order e1 with
      | none => rfl
      | some j =>
        have hjd : j < 2 ^ t.depth := lt_of_lt_of_le (position_lt _ _ _ hp) hlen
        have hji : j ≠ i := by
          intro h; subst h; exact h1 (position_inj _ _ _ _ hp hi)
        simp [RateNode.leafAt_update t.root t.depth i j r hc hid hjd, hji]



theorem EventRateTree.rate_of_getElem {E : Type} [DecidableEq E] (t : EventRateTree E)
    (hv : t.check_invariants) (i : Nat) (hi : i < t.order.length) :
    t.rate_of t.order[i] = (t.root.leafAt t.depth i).2 := by
  simp [EventRateTree.rate_of, EventRateTree.get_rate, position_getElem t.order hv.2.1 i hi]

theorem EventRateTree.cumulative_rate_eq {E : Type} [DecidableEq E] (t : EventRateTree E)
    (hv : t.check_invariants) (k : Nat) (hk : k ≤ t.order.length) :
    t.cumulative_rate k = ∑ i in Finset.range k, (t.root.leafAt t.depth i).2 := by
  induction k with
  | zero => simp [EventRateTree.cumulative_rate]
  | succ k ih =>
    have hk1 : k < t.order.length := hk
    have e := ih (le_of_lt hk1)
    unfold EventRateTree.cumulative_rate at e ⊢
    rw [List.take_succ, List.getElem?_eq_getElem hk1, Finset.sum_range_succ, ← e,
      ← EventRateTree.rate_of_getElem t hv k hk1, List.map_append, List.sum_append]
    simp [Option.toList]

theorem EventRateTree.prefix_mono {E : Type} [DecidableEq E] (t : EventRateTree E)
    (hv : t.check_invariants) (a b : Nat) (hab : a ≤ b) (hb : b ≤ 2 ^ t.depth) :
    ∑ i in Finset.range a, (t.root.leafAt t.depth i).2
      ≤ ∑ i in Finset.range b, (t.root.leafAt t.depth i).2 := by
  apply Finset.sum_le_sum_of_subset_of_nonneg
  · exact Finset.range_mono hab
  · intro i hi _
    exact (hv.2.2.2.2.2 i (lt_of_lt_of_le (Finset.mem_range.mp hi) hb)).2.1

/-- Supporting result for the tree query: in a tree satisfying the invariants, a query
value in `[0, total_rate)` yields the event of construction order whose cumulative
rate interval contains it, and no other event has such an interval. -/
theorem EventRateTree.query_tree_interval {E : Type} [DecidableEq E] (t : EventRateTree E)
    (hv : t.check_invariants) (q : ℚ) (h0 : 0 ≤ q) (h1 : q < t.total_rate) :
    ∃ k, ∃ hk : k < t.order.length, t.query_tree q = .ok t.order[k] ∧
      t.cumulative_rate k ≤ q ∧ q < t.cumulative_rate (k + 1) ∧
      ∀ j, j < t.order.length → t.cumulative_rate j ≤ q → q < t.cumulative_rate (j + 1) →
        j = k := by
  have hv0 := hv
  obtain ⟨hne, hnd, hlen, hc, hs, hleaf⟩ := hv
  obtain ⟨k, hkd, hq, hlo, hhi⟩ := RateNode.descend_interval t.root t.depth q hc hs h0 h1
  have hpos : 0 < (t.root.leafAt t.depth k).2 := by
    rw [Finset.sum_range_succ] at hhi; linarith
  have hk : k < t.order.length := by
    by_contra hcon
    have := (hleaf k hkd).2.2 (not_lt.mp hcon)
    linarith
  refine ⟨k, hk, ?_, ?_, ?_, ?_⟩
  · have hev : t.root.descend q = some t.order[k] := by
      rw [hq, (hleaf k hkd).1, List.getElem?_eq_getElem hk]
    simp [EventRateTree.query_tree, hev]
  · rw [EventRateTree.cumulative_rate_eq t hv0 k (le_of_lt hk)]; exact hlo
  · rw [EventRateTree.cumulative_rate_eq t hv0 (k + 1) hk]; exact hhi
  · intro j hj hjlo hjhi
    rw [EventRateTree.cumulative_rate_eq t hv0 j (le_of_lt hj)] at hjlo
    rw [EventRateTree.cumulative_rate_eq t hv0 (j + 1) hj] at hjhi
    rcases Nat.lt_trichotomy j k with hlt | heq | hgt
    · have := EventRateTree.prefix_mono t hv0 (j + 1) k hlt (le_of_lt hkd)
      linarith
    · exact heq
    · have := EventRateTree.prefix_mono t hv0 (k + 1) j hgt
        (le_trans (le_of_lt hj) hlen)
      linarith

theorem EventRateTree.total_rate_eq_cumulative {E : Type} [DecidableEq E]
    (t : EventRateTree E) (hv : t.check_invariants) :
    t.total_rate = t.cumulative_rate t.order.length := by
  rw [EventRateTree.cumulative_rate_eq t hv _ le_rfl]
  unfold EventRateTree.total_rate
  rw [RateNode.rate_eq_sum t.root t.depth hv.2.2.2.1 hv.2.2.2.2.1]
  symm
  apply Finset.sum_subset (Finset.range_mono hv.2.2.1)
  intro i hi hni
  exact (hv.2.2.2.2.2 i (Finset.mem_range.mp hi)).2.2
    (not_lt.mp (fun h => hni (Finset.mem_range.mpr h)))

theorem stream_generator_inRange (us : List ℚ) (h : ∀ u ∈ us, 0 ≤ u ∧ u < 1) :
    (stream_generator us).InRange := by
  intro s n
  simp only [stream_generator]
  by_cases hn : n < us.length
  · rw [List.getD_eq_getElem us 0 hn]
    exact h _ (List.getElem_mem hn)
  · rw [List.getD_eq_default us 0 (not_lt.mp hn)]
    norm_num

theorem leaf_depth_from_le (n fuel d : Nat) (h : n ≤ 2 ^ (d + fuel)) :
    n ≤ 2 ^ leaf_depth_from n fuel d := by
  induction fuel generalizing d with
  | zero => simpa [leaf_depth_from] using h
  | succ f ih =>
    simp only [leaf_depth_from]
    by_cases hd : n ≤ 2 ^ d
    · simp [hd]
    · simp only [hd, if_false]
      apply ih
      rw [show d + 1 + f = d + (f + 1) by omega]
      exact h

theorem leaf_depth_le (n : Nat) : n ≤ 2 ^ leaf_depth n := by
  unfold leaf_depth
  apply leaf_depth_from_le
  simpa using le_of_lt (Nat.lt_two_pow n)

theorem RateNode.complete_build {E : Type} (d : Nat) (slots : List (Option E × ℚ)) :
    (RateNode.build d slots).complete d = true := by
  induction d generalizing slots with
  | zero =>
    cases slots with
    | nil => simp [RateNode.build, RateNode.complete]
    | cons p rest => obtain ⟨ev, r⟩ := p; simp [RateNode.build, RateNode.complete]
  | succ d ih => simp [RateNode.build, RateNode.complete, ih]

theorem RateNode.consistent_build {E : Type} (d : Nat) (slots : List (Option E × ℚ)) :
    (RateNode.build d slots).consistent = true := by
  induction d generalizing slots with
  | zero =>
    cases slots with
    | nil => simp [RateNode.build, RateNode.consistent]
    | cons p rest => obtain ⟨ev, r⟩ := p; simp [RateNode.build, RateNode.consistent]
  | succ d ih => simp [RateNode.build, RateNode.consistent, ih]

theorem RateNode.leafAt_build {E : Type} (d : Nat) (slots : List (Option E × ℚ)) (i : Nat)
    (hi : i < 2 ^ d) :
    (RateNode.build d slots).leafAt d i = slots[i]?.getD (none, 0) := by
  induction d generalizing slots i with
  | zero =>
    have hi0 : i = 0 := by simpa using hi
    subst hi0
    cases slots with
    | nil => simp [RateNode.build, RateNode.leafAt]
    | cons p rest => obtain ⟨ev, r⟩ := p; simp [RateNode.build, RateNode.leafAt]
  | succ d ih =>
    have hp : 2 ^ (d + 1) = 2 ^ d + 2 ^ d := by ring
    simp only [RateNode.build, RateNode.leafAt]
    by_cases h : i < 2 ^ d
    · simp only [h, if_true]
      rw [ih _ i h, List.getElem?_take_of_lt h]
    · simp only [h, if_false]
      rw [ih _ (i - 2 ^ d) (by omega), List.getElem?_drop]
      congr 2
      omega



theorem slots_getElem {E : Type} (ids : List E) (rates : List ℚ) (i : Nat)
    (hi : i < ids.length) (hr : i < rates.length) :
    ((ids.zip rates).map (fun p => ((some p.1 : Option E), p.2)))[i]?.getD (none, 0)
      = (some ids[i], rates[i]) := by
  have hz : i < (ids.zip rates).length := by simp [List.length_zip]; omega
  rw [List.getElem?_eq_getElem (by simpa using hz)]
  simp

theorem slots_getElem_none {E : Type} (ids : List E) (rates : List ℚ) (i : Nat)
    (hi : ids.length ≤ i) :
    ((ids.zip rates).map (fun p => ((some p.1 : Option E), p.2)))[i]?.getD (none, 0)
      = (none, 0) := by
  have hz : (ids.zip rates).length ≤ i := by simp [List.length_zip]; omega
  rw [List.getElem?_eq_none (by simpa using hz)]
  rfl

theorem EventRateTree.construct_ok {E : Type} [DecidableEq E] (ids : List E) (rates : List ℚ)
    (hne : ids ≠ []) (hnd : ids.Nodup) (hlen : rates.length = ids.length)
    (hvalid : ∀ r ∈ rates, 0 ≤ r) :
    ∃ t, EventRateTree.construct ids rates = .ok t ∧ t.order = ids ∧ t.check_invariants ∧
      ids.map t.get_rate = rates.map Except.ok ∧ t.total_rate = rates.sum := by
  have hany : (rates.any fun r => decide (r < 0)) = false := by
    rw [List.any_eq_false]
    intro r hr
    simpa using hvalid r hr
  have hd := leaf_depth_le ids.length
  have hleaf : ∀ i, i < 2 ^ leaf_depth ids.length →
      (RateNode.build (leaf_depth ids.length)
        ((ids.zip rates).map (fun p => ((some p.1 : Option E), p.2)))).leafAt
        (leaf_depth ids.length) i
      = ((ids.zip rates).map (fun p => ((some p.1 : Option E), p.2)))[i]?.getD (none, 0) :=
    fun i hi => RateNode.leafAt_build _ _ i hi
  have hinv : EventRateTree.check_invariants
      { order := ids, depth := leaf_depth ids.length,
        root := RateNode.build (leaf_depth ids.length)
          ((ids.zip rates).map (fun p => ((some p.1 : Option E), p.2))) } := by
    refine ⟨hne, hnd, hd, RateNode.complete_build _ _, RateNode.consistent_build _ _, ?_⟩
    intro i hi
    simp only
    rw [hleaf i hi]
    by_cases hN : i < ids.length
    · have hr : i < rates.length := by omega
      rw [slots_getElem ids rates i hN hr]
      refine ⟨(List.getElem?_eq_getElem hN).symm, hvalid _ (List.getElem_mem hr), ?_⟩
      intro hcon; omega
    · rw [slots_getElem_none ids rates i (not_lt.mp hN)]
      refine ⟨(List.getElem?_eq_none (not_lt.mp hN)).symm, le_refl _, fun _ => rfl⟩
  have hget : ids.map (EventRateTree.get_rate
      { order := ids, depth := leaf_depth ids.length,
        root := RateNode.build (leaf_depth ids.length)
          ((ids.zip rates).map (fun p => ((some p.1 : Option E), p.2))) })
      = rates.map Except.ok := by
    apply List.ext_getElem (by simp [hlen])
    intro i h1 h2
    have hN : i < ids.length := by simpa using h1
    have hr : i < rates.length := by omega
    simp only [List.getElem_map, EventRateTree.get_rate, position_getElem ids hnd i hN]
    rw [hleaf i (lt_of_lt_of_le hN hd), slots_getElem ids rates i hN hr]
  refine ⟨_, ?_, rfl, hinv, hget, ?_⟩
  · simp [EventRateTree.construct, hne, hany, hnd]
  · rw [EventRateTree.total_rate_eq_cumulative _ hinv]
    simp only [EventRateTree.cumulative_rate, List.take_length]
    have : ids.map (EventRateTree.rate_of
        { order := ids, depth := leaf_depth ids.length,
          root := RateNode.build (leaf_depth ids.length)
            ((ids.zip rates).map (fun p => ((some p.1 : Option E), p.2))) }) = rates := by
      have h2 := congrArg (List.map fun x : Except Error ℚ =>
        match x with
        | .ok r => r
        | .error _ => 0) hget
      simpa [List.map_map, Function.comp_def, EventRateTree.rate_of] using h2
    rw [this]

theorem calculate_rates_length {C E : Type} (rc : C → E → ℚ × C) (c : C) (ids : List E) :
    (calculate_rates rc c ids).1.length = ids.length := by
  induction ids generalizing c with
  | nil => simp [calculate_rates]
  | cons e rest ih => simp [calculate_rates, ih]

theorem Except.eq_ok_toOption_get {ε α : Type} (r : Except ε α) (h : r.toOption.isSome) :
    r = .ok (r.toOption.get h) := by
  cases r with
  | error e => simp [Except.toOption] at h
  | ok a => rfl

theorem EventRateTree.construct_inv {E : Type} [DecidableEq E] (ids : List E) (rates : List ℚ)
    (t : EventRateTree E) (hlen : rates.length = ids.length)
    (h : EventRateTree.construct ids rates = .ok t) :
    t.check_invariants ∧ t.order = ids := by
  have hne : ids ≠ [] := by
    intro hcon
    simp [EventRateTree.construct, hcon] at h
  have hany : (rates.any fun r => decide (r < 0)) = false := by
    by_contra hcon
    simp only [Bool.not_eq_false] at hcon
    simp [EventRateTree.construct, hne, hcon] at h
  have hnd : ids.Nodup := by
    by_contra hcon
    simp [EventRateTree.construct, hne, hany, hcon] at h
  have hvalid : ∀ r ∈ rates, 0 ≤ r := by
    intro r hr
    rw [List.any_eq_false] at hany
    simpa using hany r hr
  obtain ⟨t1, ht1, ho, hv, _⟩ := EventRateTree.construct_ok ids rates hne hnd hlen hvalid
  rw [h] at ht1
  cases ht1
  exact ⟨hv, ho⟩

theorem EventRateTree.get_rate_mem {E : Type} [DecidableEq E] (t : EventRateTree E) (e : E)
    (he : e ∈ t.order) : t.get_rate e = .ok (t.rate_of e) := by
  obtain ⟨i, hi⟩ := position_mem t.order e he
  simp [EventRateTree.rate_of, EventRateTree.get_rate, hi]

theorem EventRateTree.total_rate_nonneg {E : Type} [DecidableEq E] (t : EventRateTree E)
    (hv : t.check_invariants) : 0 ≤ t.total_rate := by
  unfold EventRateTree.total_rate
  rw [RateNode.rate_eq_sum t.root t.depth hv.2.2.2.1 hv.2.2.2.2.1]
  apply Finset.sum_nonneg
  intro i hi
  exact (hv.2.2.2.2.2 i (Finset.mem_range.mp hi)).2.1

theorem EventRateTree.query_tree_error_kind {E : Type} (t : EventRateTree E) (q : ℚ) (err : Error)
    (h : t.query_tree q = .error err) : err = .QueryUndefined := by
  unfold EventRateTree.query_tree at h
  cases hd : t.root.descend q with
  | some e => simp [hd] at h
  | none =>
    simp only [hd] at h
    cases hr : t.root.rightmost_positive with
    | some e => simp [hr] at h
    | none =>
      simp only [hr, Except.error.injEq] at h
      exact h.symm

/-! ## Lemmas on the impact table -/

theorem ImpactTable.find_append {E : Type} [DecidableEq E] (m1 m2 : ImpactTable E) (e : E) :
    ImpactTable.find (m1 ++ m2) e =
      if (ImpactTable.find m1 e).isSome then ImpactTable.find m1 e else ImpactTable.find m2 e := by
  induction m1 with
  | nil => simp [ImpactTable.find]
  | cons p rest ih =>
    obtain ⟨k, v⟩ := p
    by_cases h : e = k
    · simp [ImpactTable.find, h]
    · simp only [List.cons_append, ImpactTable.find, h, if_false]
      exact ih

theorem ImpactTable.find_index {E : Type} [DecidableEq E] (m : ImpactTable E) (k e : E) :
    ImpactTable.find (ImpactTable.index m k) e =
      if (ImpactTable.find m e).isSome then ImpactTable.find m e
      else if e = k then some [] else none := by
  unfold ImpactTable.index
  cases hk : ImpactTable.find m k with
  | none =>
    simp only [ImpactTable.find_append, ImpactTable.find]
  | some v =>
    simp only
    by_cases he : e = k
    · subst he; simp [hk]
    · cases hf : ImpactTable.find m e <;> simp [he]

theorem fill_impact_table_find {E : Type} [DecidableEq E] (m : ImpactTable E) (ids : List E)
    (e : E) :
    ImpactTable.find (fill_impact_table m ids) e =
      if (ImpactTable.find m e).isSome then ImpactTable.find m e
      else if e ∈ ids then some [] else none := by
  unfold fill_impact_table
  induction ids generalizing m with
  | nil => cases h : ImpactTable.find m e <;> simp [h]
  | cons k rest ih =>
    simp only [List.foldl_cons]
    rw [ih (ImpactTable.index m k), ImpactTable.find_index]
    cases hf : ImpactTable.find m e with
    | some v => simp
    | none =>
      by_cases he : e = k
      · simp [he]
      · simp [he]

theorem fill_impact_table_extends {E : Type} [DecidableEq E] (m : ImpactTable E)
    (ids : List E) :
    ∃ added : ImpactTable E, fill_impact_table m ids = m ++ added ∧ ∀ p ∈ added, p.2 = [] := by
  unfold fill_impact_table
  induction ids generalizing m with
  | nil => exact ⟨[], by simp, by simp⟩
  | cons k rest ih =>
    simp only [List.foldl_cons]
    obtain ⟨added, h1, h2⟩ := ih (ImpactTable.index m k)
    unfold ImpactTable.index at h1
    cases hk : ImpactTable.find m k with
    | some v =>
      simp only [hk] at h1
      exact ⟨added, by simpa [ImpactTable.index, hk] using h1, h2⟩
    | none =>
      simp only [hk] at h1
      refine ⟨(k, []) :: added, by simpa [ImpactTable.index, hk] using h1, ?_⟩
      intro p hp
      rcases List.mem_cons.mp hp with rfl | hp
      · rfl
      · exact h2 p hp

theorem calculate_rates_logged {C E : Type} (rc : C → E → ℚ × C) (c : C) (log ids : List E) :
    calculate_rates (logged rc) (c, log) ids =
      ((calculate_rates rc c ids).1, ((calculate_rates rc c ids).2, log ++ ids)) := by
  induction ids generalizing c log with
  | nil => simp [calculate_rates]
  | cons e rest ih =>
    simp only [calculate_rates, logged]
    rw [ih]
    simp

theorem construct_table_ok {C E : Type} [DecidableEq E] (rc : C → E → ℚ × C) (c0 : C)
    (ids : List E) (M : ImpactTable E) (g : RandomGenerator)
    (hne : ids ≠ []) (hnd : ids.Nodup)
    (hvalid : ∀ r ∈ (calculate_rates rc c0 ids).1, 0 ≤ r) :
    ∃ t, EventRateTree.construct ids (calculate_rates rc c0 ids).1 = .ok t ∧
      RejectionFreeEventSelector.construct_table rc c0 ids M g =
        .ok { rate_calculator := rc, calculator_state := (calculate_rates rc c0 ids).2,
              random_generator := g, event_rate_tree := t,
              impact_table := fill_impact_table M ids, impacted_events_ptr := none,
              get_impact := (GetImpactFromTable.mk M).call } := by
  obtain ⟨t, ht, _⟩ := EventRateTree.construct_ok ids (calculate_rates rc c0 ids).1 hne hnd
    (calculate_rates_length rc c0 ids) hvalid
  refine ⟨t, ht, ?_⟩
  unfold RejectionFreeEventSelector.construct_table
  rcases hcr : calculate_rates rc c0 ids with ⟨rates, c1⟩
  rw [hcr] at ht
  simp only at ht
  have hemp : ids.isEmpty = false := by
    cases ids with
    | nil => exact absurd rfl hne
    | cons x xs => rfl
  simp [ht, hemp]

theorem construct_function_ok {C E : Type} [DecidableEq E] (rc : C → E → ℚ × C) (c0 : C)
    (ids : List E) (f : E → List E) (g : RandomGenerator)
    (hne : ids ≠ []) (hnd : ids.Nodup)
    (hvalid : ∀ r ∈ (calculate_rates rc c0 ids).1, 0 ≤ r) :
    ∃ t, EventRateTree.construct ids (calculate_rates rc c0 ids).1 = .ok t ∧
      RejectionFreeEventSelector.construct_function rc c0 ids f g =
        .ok { rate_calculator := rc, calculator_state := (calculate_rates rc c0 ids).2,
              random_generator := g, event_rate_tree := t,
              impact_table := [], impacted_events_ptr := none,
              get_impact := fun e => .ok (f e) } := by
  obtain ⟨t, ht, _⟩ := EventRateTree.construct_ok ids (calculate_rates rc c0 ids).1 hne hnd
    (calculate_rates_length rc c0 ids) hvalid
  refine ⟨t, ht, ?_⟩
  unfold RejectionFreeEventSelector.construct_function
  rcases hcr : calculate_rates rc c0 ids with ⟨rates, c1⟩
  rw [hcr] at ht
  simp only at ht
  have hemp : ids.isEmpty = false := by
    cases ids with
    | nil => exact absurd rfl hne
    | cons x xs => rfl
  simp [ht, hemp]

theorem s3_rates_nonneg (c : Nat) (y : Ev) : 0 ≤ (s3_rates c y).1 := by
  cases y
  case B =>
    simp only [s3_rates]
    split <;> norm_num
  all_goals simp [s3_rates]

/-! ## Lemmas on the selector -/

namespace RejectionFreeEventSelector

variable {C E : Type} [DecidableEq E]

theorem refresh_ok_ptr (s : RejectionFreeEventSelector C E)
    (h : (update_impacted_event_rates s).1 = .ok ()) :
    (update_impacted_event_rates s).2.impacted_events_ptr = none := by
  unfold update_impacted_event_rates at h ⊢
  cases hp : s.impacted_events_ptr with
  | none => simp [hp]
  | some P =>
    simp only [hp] at h ⊢
    rcases hl : refresh_loop s.rate_calculator P s.event_rate_tree s.calculator_state with
      ⟨res, t, c⟩
    rw [hl] at h
    cases res with
    | error err => simp at h
    | ok u => simp

theorem select_event_refresh_error (s : RejectionFreeEventSelector C E) (err : Error)
    (h : (update_impacted_event_rates s).1 = .error err) :
    select_event s = (.error err, (update_impacted_event_rates s).2) := by
  unfold select_event
  rcases hu : update_impacted_event_rates s with ⟨res, s1⟩
  rw [hu] at h
  simp only at h
  subst h
  rfl

theorem select_event_refresh_ok (s : RejectionFreeEventSelector C E)
    (h : (update_impacted_event_rates s).1 = .ok ()) :
    select_event s =
      (let s1 := (update_impacted_event_rates s).2
       let R := s1.event_rate_tree.total_rate
       let g := s1.random_generator
       let s2 := { s1 with random_generator := { g with drawn := g.drawn + 1 + 1 } }
       match s1.event_rate_tree.query_tree (R * g.engine g.seed (g.drawn + 1)) with
       | .error err => (.error err, s2)
       | .ok e =>
         match s1.get_impact e with
         | .error err => (.error err, s2)
         | .ok v =>
           (.ok (e, { variate := 1 - g.engine g.seed g.drawn, total_rate := R }),
            { s2 with impacted_events_ptr := some v })) := by
  have hptr := refresh_ok_ptr s h
  unfold select_event
  rcases hu : update_impacted_event_rates s with ⟨res, s1⟩
  rw [hu] at h hptr
  simp only at h hptr
  subst h
  simp only [calculate_time_step, RandomGenerator.open_unit_interval,
    RandomGenerator.sample_unit_interval]
  cases hq : s1.event_rate_tree.query_tree
      (s1.event_rate_tree.total_rate *
        s1.random_generator.engine s1.random_generator.seed
          (s1.random_generator.drawn + 1)) with
  | error err => simp
  | ok e =>
    cases hg : s1.get_impact e with
    | error err => simp [set_impacted_events, hptr, hg]
    | ok v => simp [set_impacted_events, hptr, hg]

theorem refresh_keeps_get_impact (s : RejectionFreeEventSelector C E) :
    (update_impacted_event_rates s).2.get_impact = s.get_impact := by
  unfold update_impacted_event_rates
  cases s.impacted_events_ptr with
  | none => rfl
  | some P =>
    simp only
    rcases refresh_loop s.rate_calculator P s.event_rate_tree s.calculator_state with
      ⟨res, t, c⟩
    cases res <;> rfl

theorem select_event_ok_inv (s : RejectionFreeEventSelector C E) (e : E) (ts : TimeStep)
    (h : (select_event s).1 = .ok (e, ts)) :
    (update_impacted_event_rates s).1 = .ok () ∧
    (update_impacted_event_rates s).2.event_rate_tree.query_tree
      ((update_impacted_event_rates s).2.event_rate_tree.total_rate *
        (update_impacted_event_rates s).2.random_generator.engine
          (update_impacted_event_rates s).2.random_generator.seed
          ((update_impacted_event_rates s).2.random_generator.drawn + 1)) = .ok e ∧
    ts = { variate := 1 - (update_impacted_event_rates s).2.random_generator.engine
              (update_impacted_event_rates s).2.random_generator.seed
              (update_impacted_event_rates s).2.random_generator.drawn,
           total_rate := (update_impacted_event_rates s).2.event_rate_tree.total_rate } ∧
    ∃ v, s.get_impact e = .ok v ∧ (select_event s).2.impacted_events_ptr = some v := by
  cases hu : (update_impacted_event_rates s).1 with
  | error err =>
    rw [select_event_refresh_error s err hu] at h
    simp at h
  | ok u =>
    have hget := refresh_keeps_get_impact s
    rw [select_event_refresh_ok s hu] at h ⊢
    simp only at h ⊢
    cases hq : (update_impacted_event_rates s).2.event_rate_tree.query_tree
      ((update_impacted_event_rates s).2.event_rate_tree.total_rate *
        (update_impacted_event_rates s).2.random_generator.engine
          (update_impacted_event_rates s).2.random_generator.seed
          ((update_impacted_event_rates s).2.random_generator.drawn + 1)) with
    | error err => simp [hq] at h
    | ok e1 =>
      simp only [hq] at h ⊢
      cases hg : (update_impacted_event_rates s).2.get_impact e1 with
      | error err => simp [hg] at h
      | ok v =>
        simp only [hg, Except.ok.injEq, Prod.mk.injEq] at h ⊢
        obtain ⟨he, hts⟩ := h
        subst he
        exact ⟨trivial, rfl, hts.symm, v, by rw [← hget, hg], rfl⟩

theorem refresh_loop_ok (rc : C → E → ℚ × C) (c : C) (P : List E) (t : EventRateTree E)
    (hv : t.check_invariants) (hknown : ∀ e ∈ P, e ∈ t.order)
    (hstable : ∀ e ∈ P, (rc c e).2 = c) (hvalid : ∀ e ∈ P, 0 ≤ (rc c e).1) :
    ∃ t1, refresh_loop rc P t c = (.ok (), t1, c) ∧ t1.check_invariants ∧
      t1.order = t.order ∧ t1.depth = t.depth ∧
      ∀ e, t1.get_rate e = if e ∈ P then .ok (rc c e).1 else t.get_rate e := by
  induction P generalizing t with
  | nil => exact ⟨t, rfl, hv, rfl, rfl, by simp⟩
  | cons x rest ih =>
    obtain ⟨t1, h1, hv1, ho1, hd1, hg1⟩ :=
      EventRateTree.update_rate_ok t x (rc c x).1 hv (hknown x (by simp)) (hvalid x (by simp))
    obtain ⟨t2, h2, hv2, ho2, hd2, hg2⟩ := ih t1 hv1
      (fun e he => ho1 ▸ hknown e (by simp [he])) (fun e he => hstable e (by simp [he]))
      (fun e he => hvalid e (by simp [he]))
    refine ⟨t2, ?_, hv2, ho2.trans ho1, hd2.trans hd1, ?_⟩
    · have hc : rc c x = ((rc c x).1, c) := Prod.ext rfl (hstable x (by simp))
      simp only [refresh_loop]
      rw [hc]
      simp only [h1]
      exact h2
    · intro e
      rw [hg2 e, hg1 e]
      by_cases her : e ∈ rest
      · simp [her]
      · by_cases hex : e = x
        · subst hex; simp [her]
        · simp [her, hex]

theorem refresh_keeps_generator (s : RejectionFreeEventSelector C E) :
    (update_impacted_event_rates s).2.random_generator = s.random_generator := by
  unfold update_impacted_event_rates
  cases s.impacted_events_ptr with
  | none => rfl
  | some P =>
    simp only
    rcases refresh_loop s.rate_calculator P s.event_rate_tree s.calculator_state with
      ⟨res, t, c⟩
    cases res <;> rfl

theorem refresh_pending (s : RejectionFreeEventSelector C E) (P : List E)
    (hP : s.impacted_events_ptr = some P) :
    (update_impacted_event_rates s).1 =
      (refresh_loop s.rate_calculator P s.event_rate_tree s.calculator_state).1 ∧
    (update_impacted_event_rates s).2.event_rate_tree =
      (refresh_loop s.rate_calculator P s.event_rate_tree s.calculator_state).2.1 ∧
    (update_impacted_event_rates s).2.calculator_state =
      (refresh_loop s.rate_calculator P s.event_rate_tree s.calculator_state).2.2 := by
  unfold update_impacted_event_rates
  simp only [hP]
  rcases refresh_loop s.rate_calculator P s.event_rate_tree s.calculator_state with
    ⟨res, t, c⟩
  cases res <;> exact ⟨rfl, rfl, rfl⟩

theorem refresh_loop_error (rc : C → E → ℚ × C) (P : List E) (t t1 : EventRateTree E)
    (c c1 : C) (err : Error) (h : refresh_loop rc P t c = (.error err, t1, c1)) :
    ∃ pre x post c0, P = pre ++ x :: post ∧ refresh_loop rc pre t c = (.ok (), t1, c0) ∧
      t1.update_rate x (rc c0 x).1 = .error err ∧ c1 = (rc c0 x).2 := by
  induction P generalizing t c with
  | nil => simp [refresh_loop] at h
  | cons y rest ih =>
    simp only [refresh_loop] at h
    cases hu : t.update_rate y (rc c y).1 with
    | error e1 =>
      simp only [hu, Prod.mk.injEq, Except.error.injEq] at h
      obtain ⟨he, ht, hc⟩ := h
      subst he ht hc
      exact ⟨[], y, rest, c, rfl, rfl, hu, rfl⟩
    | ok t2 =>
      simp only [hu] at h
      obtain ⟨pre, x, post, c0, hP, hpre, hx, hc⟩ := ih t2 (rc c y).2 h
      refine ⟨y :: pre, x, post, c0, by simp [hP], ?_, hx, hc⟩
      simp only [refresh_loop, hu]
      exact hpre

theorem refresh_loop_ok_known (rc : C → E → ℚ × C) (c : C) (P : List E)
    (t t1 : EventRateTree E) (c1 : C) (hstable : ∀ e ∈ P, (rc c e).2 = c)
    (h : refresh_loop rc P t c = (.ok (), t1, c1)) :
    ∀ e ∈ P, e ∈ t.order ∧ 0 ≤ (rc c e).1 := by
  induction P generalizing t with
  | nil => simp
  | cons y rest ih =>
    simp only [refresh_loop] at h
    cases hu : t.update_rate y (rc c y).1 with
    | error e1 => simp [hu] at h
    | ok t2 =>
      simp only [hu, hstable y (by simp)] at h
      have hy : y ∈ t.order ∧ 0 ≤ (rc c y).1 ∧ t2.order = t.order := by
        unfold EventRateTree.update_rate at hu
        cases hp : position t.order y with
        | none => simp [hp] at hu
        | some i =>
          have hmem : y ∈ t.order := by
            by_contra hne
            rw [(position_none _ _).mpr hne] at hp
            cases hp
          by_cases hr : (rc c y).1 < 0
          · simp [hp, hr] at hu
          · simp only [hp, hr, if_false, Except.ok.injEq] at hu
            subst hu
            exact ⟨hmem, not_lt.mp hr, rfl⟩
      intro e he
      rcases List.mem_cons.mp he with rfl | hrest
      · exact ⟨hy.1, hy.2.1⟩
      · have := ih t2 (fun e he => hstable e (by simp [he])) h e hrest
        exact ⟨hy.2.2 ▸ this.1, this.2⟩

/-- Supporting result on the event draw: when the refresh succeeds and leaves a tree `t`
that satisfies the invariants and has a positive total rate `R`, the event-draw variate
`u` lies in `[0, 1)`, and the impact oracle answers for every event of the tree, then
`select_event` returns the event of construction order whose cumulative rate interval
contains `q = R * u`, and no other event has such an interval. -/
theorem select_event_interval_event (s : RejectionFreeEventSelector C E)
    (t : EventRateTree E) (q : ℚ)
    (hu : (update_impacted_event_rates s).1 = .ok ())
    (ht : (update_impacted_event_rates s).2.event_rate_tree = t)
    (hq : q = t.total_rate *
      s.random_generator.engine s.random_generator.seed (s.random_generator.drawn + 1))
    (hv : t.check_invariants) (hR : 0 < t.total_rate)
    (hrange : s.random_generator.InRange)
    (hlookup : ∀ e ∈ t.order, ∃ v, s.get_impact e = .ok v) :
    ∃ k, ∃ hk : k < t.order.length, ∃ ts, (select_event s).1 = .ok (t.order[k], ts) ∧
      t.cumulative_rate k ≤ q ∧ q < t.cumulative_rate (k + 1) ∧
      ∀ j, j < t.order.length → t.cumulative_rate j ≤ q → q < t.cumulative_rate (j + 1) →
        j = k := by
  have hr := hrange s.random_generator.seed (s.random_generator.drawn + 1)
  have h0 : 0 ≤ q := by rw [hq]; exact mul_nonneg (le_of_lt hR) hr.1
  have h1 : q < t.total_rate := by
    rw [hq]
    calc t.total_rate * _ < t.total_rate * 1 := mul_lt_mul_of_pos_left hr.2 hR
      _ = t.total_rate := mul_one _
  obtain ⟨k, hk, hquery, hlo, hhi, huniq⟩ := EventRateTree.query_tree_interval t hv q h0 h1
  obtain ⟨v, hv1⟩ := hlookup t.order[k] (List.getElem_mem hk)
  refine ⟨k, hk, TimeStep.mk
    (1 - s.random_generator.engine s.random_generator.seed s.random_generator.drawn)
    t.total_rate, ?_, hlo, hhi, huniq⟩
  rw [select_event_refresh_ok s hu]
  simp only [ht, refresh_keeps_generator, refresh_keeps_get_impact, ← hq, hquery, hv1]

theorem update_rate_order (t t1 : EventRateTree E) (e : E) (r : ℚ)
    (h : t.update_rate e r = .ok t1) : t1.order = t.order ∧ t1.depth = t.depth := by
  unfold EventRateTree.update_rate at h
  cases hp : position t.order e with
  | none => simp [hp] at h
  | some i =>
    by_cases hr : r < 0
    · simp [hp, hr] at h
    · simp only [hp, hr, if_false, Except.ok.injEq] at h
      subst h
      exact ⟨rfl, rfl⟩

theorem refresh_loop_order (rc : C → E → ℚ × C) (P : List E) (t : EventRateTree E) (c : C) :
    (refresh_loop rc P t c).2.1.order = t.order := by
  induction P generalizing t c with
  | nil => rfl
  | cons y rest ih =>
    simp only [refresh_loop]
    cases hu : t.update_rate y (rc c y).1 with
    | error err => rfl
    | ok t1 =>
      simp only
      rw [ih t1, (update_rate_order t t1 y _ hu).1]

theorem refresh_order (s : RejectionFreeEventSelector C E) :
    (update_impacted_event_rates s).2.event_rate_tree.order = s.event_rate_tree.order := by
  cases hp : s.impacted_events_ptr with
  | none => simp [update_impacted_event_rates, hp]
  | some P =>
    rw [(refresh_pending s P hp).2.1]
    exact refresh_loop_order _ _ _ _

theorem refresh_keeps_calculator (s : RejectionFreeEventSelector C E) :
    (update_impacted_event_rates s).2.rate_calculator = s.rate_calculator := by
  unfold update_impacted_event_rates
  cases s.impacted_events_ptr with
  | none => rfl
  | some P =>
    simp only
    rcases refresh_loop s.rate_calculator P s.event_rate_tree s.calculator_state with
      ⟨res, t, c⟩
    cases res <;> rfl

theorem refresh_loop_unknown (rc : C → E → ℚ × C) (P : List E) (t : EventRateTree E) (c : C)
    (x : E) (hx : x ∈ P) (hunknown : x ∉ t.order)
    (hvalid : ∀ c1, ∀ y ∈ P, 0 ≤ (rc c1 y).1) :
    (refresh_loop rc P t c).1 = .error .UnknownEvent := by
  induction P generalizing t c with
  | nil => simp at hx
  | cons y rest ih =>
    simp only [refresh_loop]
    cases hu : t.update_rate y (rc c y).1 with
    | error err =>
      simp only
      rcases EventRateTree.update_rate_error t y _ err hu with ⟨_, he⟩ | ⟨_, hneg, _⟩
      · rw [he]
      · exact absurd hneg (not_lt.mpr (hvalid c y (by simp)))
    | ok t1 =>
      simp only
      have hy : y ∈ t.order := by
        by_contra hne
        simp [EventRateTree.update_rate, (position_none _ _).mpr hne] at hu
      have hxy : x ≠ y := fun h => hunknown (h ▸ hy)
      have hxr : x ∈ rest := by
        rcases List.mem_cons.mp hx with h | h
        · exact absurd h hxy
        · exact h
      exact ih t1 (rc c y).2 hxr ((update_rate_order t t1 y _ hu).1 ▸ hunknown)
        (fun c1 z hz => hvalid c1 z (by simp [hz]))

theorem select_event_ok_state (s : RejectionFreeEventSelector C E) (e : E) (v : List E)
    (hu : (update_impacted_event_rates s).1 = .ok ())
    (hq : (update_impacted_event_rates s).2.event_rate_tree.query_tree
      ((update_impacted_event_rates s).2.event_rate_tree.total_rate *
        s.random_generator.engine s.random_generator.seed
          (s.random_generator.drawn + 1)) = .ok e)
    (hg : s.get_impact e = .ok v) :
    (select_event s).1 = .ok (e,
      { variate := 1 - s.random_generator.engine s.random_generator.seed
          s.random_generator.drawn,
        total_rate := (update_impacted_event_rates s).2.event_rate_tree.total_rate }) ∧
    (select_event s).2.impacted_events_ptr = some v ∧
    (select_event s).2.event_rate_tree = (update_impacted_event_rates s).2.event_rate_tree ∧
    (select_event s).2.rate_calculator = s.rate_calculator ∧
    (select_event s).2.get_impact = s.get_impact ∧
    (select_event s).2.calculator_state = (update_impacted_event_rates s).2.calculator_state := by
  rw [select_event_refresh_ok s hu]
  simp only [refresh_keeps_generator, refresh_keeps_get_impact, hq, hg,
    refresh_keeps_calculator, and_self]

theorem refresh_loop_pure (rc : C → E → ℚ × C) (f : E → ℚ) (I : C → Prop) (P : List E)
    (t : EventRateTree E) (c : C)
    (hv : t.check_invariants) (hknown : ∀ e ∈ P, e ∈ t.order)
    (hI : I c) (hstep : ∀ c1, I c1 → ∀ e ∈ P, I (rc c1 e).2)
    (hpure : ∀ c1, I c1 → ∀ e ∈ P, (rc c1 e).1 = f e) (hvalid : ∀ e ∈ P, 0 ≤ f e) :
    ∃ t1 c1, refresh_loop rc P t c = (.ok (), t1, c1) ∧ t1.check_invariants ∧
      t1.order = t.order ∧
      ∀ e, t1.get_rate e = if e ∈ P then .ok (f e) else t.get_rate e := by
  induction P generalizing t c with
  | nil => exact ⟨t, c, rfl, hv, rfl, by simp⟩
  | cons x rest ih =>
    have hfx : (rc c x).1 = f x := hpure c hI x (by simp)
    obtain ⟨t1, h1, hv1, ho1, _, hg1⟩ :=
      EventRateTree.update_rate_ok t x (f x) hv (hknown x (by simp)) (hvalid x (by simp))
    obtain ⟨t2, c2, h2, hv2, ho2, hg2⟩ := ih t1 (rc c x).2 hv1
      (fun e he => ho1 ▸ hknown e (by simp [he])) (hstep c hI x (by simp))
      (fun c1 hc1 e he => hstep c1 hc1 e (by simp [he]))
      (fun c1 hc1 e he => hpure c1 hc1 e (by simp [he]))
      (fun e he => hvalid e (by simp [he]))
    refine ⟨t2, c2, ?_, hv2, ho2.trans ho1, ?_⟩
    · simp only [refresh_loop, hfx, h1]
      exact h2
    · intro e
      rw [hg2 e, hg1 e]
      by_cases her : e ∈ rest
      · simp [her]
      · by_cases hex : e = x
        · subst hex; simp [her]
        · simp [her, hex]

theorem total_rate_congr (t1 t2 : EventRateTree E) (h1 : t1.check_invariants)
    (h2 : t2.check_invariants) (ho : t1.order = t2.order)
    (hg : ∀ e, t1.get_rate e = t2.get_rate e) : t1.total_rate = t2.total_rate := by
  rw [EventRateTree.total_rate_eq_cumulative t1 h1, EventRateTree.total_rate_eq_cumulative t2 h2]
  have hr : t1.rate_of = t2.rate_of := by
    funext e
    simp [EventRateTree.rate_of, hg e]
  simp [EventRateTree.cumulative_rate, ho, hr]

theorem refresh_loop_invariants (rc : C → E → ℚ × C) (P : List E) (t : EventRateTree E)
    (c : C) (hv : t.check_invariants) :
    (refresh_loop rc P t c).2.1.check_invariants := by
  induction P generalizing t c with
  | nil => exact hv
  | cons y rest ih =>
    simp only [refresh_loop]
    cases hu : t.update_rate y (rc c y).1 with
    | error err => exact hv
    | ok t1 =>
      simp only
      apply ih
      have hy : y ∈ t.order := by
        by_contra hne
        simp [EventRateTree.update_rate, (position_none _ _).mpr hne] at hu
      have hr : 0 ≤ (rc c y).1 := by
        by_contra hneg
        obtain ⟨i, hi⟩ := position_mem t.order y hy
        simp [EventRateTree.update_rate, hi, not_le.mp hneg] at hu
      obtain ⟨t2, h2, hv2, _⟩ := EventRateTree.update_rate_ok t y _ hv hy hr
      rw [hu] at h2
      cases h2
      exact hv2

theorem refresh_invariants (s : RejectionFreeEventSelector C E)
    (hv : s.event_rate_tree.check_invariants) :
    (update_impacted_event_rates s).2.event_rate_tree.check_invariants := by
  cases hp : s.impacted_events_ptr with
  | none => simpa [update_impacted_event_rates, hp] using hv
  | some P =>
    rw [(refresh_pending s P hp).2.1]
    exact refresh_loop_invariants _ _ _ _ hv

theorem select_event_frame (s : RejectionFreeEventSelector C E) :
    (select_event s).2.event_rate_tree = (update_impacted_event_rates s).2.event_rate_tree ∧
    (select_event s).2.get_impact = s.get_impact ∧
    (select_event s).2.rate_calculator = s.rate_calculator := by
  cases hu : (update_impacted_event_rates s).1 with
  | error err =>
    rw [select_event_refresh_error s err hu]
    exact ⟨rfl, refresh_keeps_get_impact s, refresh_keeps_calculator s⟩
  | ok u =>
    rw [select_event_refresh_ok s hu]
    simp only
    cases (update_impacted_event_rates s).2.event_rate_tree.query_tree
      ((update_impacted_event_rates s).2.event_rate_tree.total_rate *
        (update_impacted_event_rates s).2.random_generator.engine
          (update_impacted_event_rates s).2.random_generator.seed
          ((update_impacted_event_rates s).2.random_generator.drawn + 1)) with
    | error err => exact ⟨rfl, refresh_keeps_get_impact s, refresh_keeps_calculator s⟩
    | ok e =>
      simp only
      cases (update_impacted_event_rates s).2.get_impact e with
      | error err => exact ⟨rfl, refresh_keeps_get_impact s, refresh_keeps_calculator s⟩
      | ok v => exact ⟨rfl, refresh_keeps_get_impact s, refresh_keeps_calculator s⟩

theorem constructed_invariants (rc : C → E → ℚ × C) (c0 : C) (ids : List E)
    (M : ImpactTable E) (f : E → List E) (g : RandomGenerator)
    (s0 : RejectionFreeEventSelector C E)
    (hc : construct_table rc c0 ids M g = .ok s0 ∨ construct_function rc c0 ids f g = .ok s0) :
    s0.event_rate_tree.check_invariants ∧ s0.event_rate_tree.order = ids ∧
    ∀ e, s0.get_impact e ≠ .error .assertion_failed := by
  have hlen := calculate_rates_length rc c0 ids
  rcases hc with hc | hc
  · unfold construct_table at hc
    rcases hcr : calculate_rates rc c0 ids with ⟨rates, c1⟩
    rw [hcr] at hc hlen
    simp only at hc hlen
    cases ht : EventRateTree.construct ids rates with
    | error err => simp [ht] at hc
    | ok t =>
      simp only [ht] at hc
      by_cases hemp : ids.isEmpty = true
      · simp [hemp] at hc
      · simp only [hemp, Bool.false_eq_true, if_false, Except.ok.injEq] at hc
        subst hc
        obtain ⟨hv, ho⟩ := EventRateTree.construct_inv ids rates t hlen ht
        refine ⟨hv, ho, ?_⟩
        intro e
        simp only [GetImpactFromTable.call, ImpactTable.at]
        cases ImpactTable.find M e <;> simp
  · unfold construct_function at hc
    rcases hcr : calculate_rates rc c0 ids with ⟨rates, c1⟩
    rw [hcr] at hc hlen
    simp only at hc hlen
    cases ht : EventRateTree.construct ids rates with
    | error err => simp [ht] at hc
    | ok t =>
      simp only [ht] at hc
      by_cases hemp : ids.isEmpty = true
      · simp [hemp] at hc
      · simp only [hemp, Bool.false_eq_true, if_false, Except.ok.injEq] at hc
        subst hc
        obtain ⟨hv, ho⟩ := EventRateTree.construct_inv ids rates t hlen ht
        exact ⟨hv, ho, fun e => by simp⟩

theorem reachable_invariants (s0 s : RejectionFreeEventSelector C E) (ids : List E)
    (h0 : s0.event_rate_tree.check_invariants ∧ s0.event_rate_tree.order = ids ∧
      ∀ e, s0.get_impact e ≠ .error .assertion_failed)
    (hr : Reachable s0 s) :
    s.event_rate_tree.check_invariants ∧ s.event_rate_tree.order = ids ∧
      ∀ e, s.get_impact e ≠ .error .assertion_failed := by
  induction hr with
  | start => exact h0
  | select_event s1 _ ih =>
    obtain ⟨ht, hg, _⟩ := select_event_frame s1
    rw [ht, hg, refresh_order]
    exact ⟨refresh_invariants s1 ih.1, ih.2.1, ih.2.2⟩
  | total_rate s1 _ ih => exact ih
  | get_rate s1 e _ ih => exact ih
  | calculator s1 c _ ih => exact ih

theorem refresh_with_generator (s : RejectionFreeEventSelector C E) (g : RandomGenerator) :
    update_impacted_event_rates { s with random_generator := g } =
      ((update_impacted_event_rates s).1,
        { (update_impacted_event_rates s).2 with random_generator := g }) := by
  obtain ⟨rc, c0, rg, t0, tbl, ptr, gi⟩ := s
  unfold update_impacted_event_rates
  cases ptr with
  | none => rfl
  | some P =>
    simp only
    rcases refresh_loop rc P t0 c0 with ⟨res, t, c⟩
    cases res <;> rfl

theorem select_event_result (s : RejectionFreeEventSelector C E) :
    (select_event s).1 =
      (update_impacted_event_rates s).1.bind fun _ =>
        ((update_impacted_event_rates s).2.event_rate_tree.query_tree
          ((update_impacted_event_rates s).2.event_rate_tree.total_rate *
            s.random_generator.engine s.random_generator.seed
              (s.random_generator.drawn + 1))).bind fun e =>
          (s.get_impact e).map fun _ =>
            (e, { variate := 1 - s.random_generator.engine s.random_generator.seed
                    s.random_generator.drawn,
                  total_rate :=
                    (update_impacted_event_rates s).2.event_rate_tree.total_rate }) := by
  cases hu : (update_impacted_event_rates s).1 with
  | error err =>
    rw [select_event_refresh_error s err hu]
    rfl
  | ok u =>
    rw [select_event_refresh_ok s hu]
    simp only [refresh_keeps_generator, refresh_keeps_get_impact, Except.bind]
    cases hq : (update_impacted_event_rates s).2.event_rate_tree.query_tree
        ((update_impacted_event_rates s).2.event_rate_tree.total_rate *
          s.random_generator.engine s.random_generator.seed
            (s.random_generator.drawn + 1)) with
    | error err => rfl
    | ok e => cases hg : s.get_impact e <;> simp [hg, Except.map]

theorem select_event_pending (s : RejectionFreeEventSelector C E) :
    (select_event s).2.impacted_events_ptr =
      match (update_impacted_event_rates s).1 with
      | .error _ => s.impacted_events_ptr
      | .ok _ =>
        match (update_impacted_event_rates s).2.event_rate_tree.query_tree
          ((update_impacted_event_rates s).2.event_rate_tree.total_rate *
            s.random_generator.engine s.random_generator.seed
              (s.random_generator.drawn + 1)) with
        | .error _ => none
        | .ok e =>
          match s.get_impact e with
          | .error _ => none
          | .ok v => some v := by
  cases hu : (update_impacted_event_rates s).1 with
  | error err =>
    rw [select_event_refresh_error s err hu]
    simp only
    unfold update_impacted_event_rates at hu ⊢
    cases hp : s.impacted_events_ptr with
    | none => simp [hp] at hu
    | some P =>
      simp only [hp] at hu ⊢
      rcases hl : refresh_loop s.rate_calculator P s.event_rate_tree s.calculator_state with
        ⟨res, t, c⟩
      rw [hl] at hu
      cases res with
      | error e1 => rfl
      | ok u => simp at hu
  | ok u =>
    have hptr := refresh_ok_ptr s hu
    rw [select_event_refresh_ok s hu]
    simp only [refresh_keeps_generator, refresh_keeps_get_impact]
    cases hq : (update_impacted_event_rates s).2.event_rate_tree.query_tree
        ((update_impacted_event_rates s).2.event_rate_tree.total_rate *
          s.random_generator.engine s.random_generator.seed
            (s.random_generator.drawn + 1)) with
    | error err => simpa using hptr
    | ok e =>
      cases hg : s.get_impact e with
      | error err => simp [hg, hptr]
      | ok v => simp [hg]

theorem select_event_calculator_state (s : RejectionFreeEventSelector C E) :
    (select_event s).2.calculator_state =
      (update_impacted_event_rates s).2.calculator_state := by
  cases hu : (update_impacted_event_rates s).1 with
  | error err => rw [select_event_refresh_error s err hu]
  | ok u =>
    rw [select_event_refresh_ok s hu]
    simp only
    cases (update_impacted_event_rates s).2.event_rate_tree.query_tree
        ((update_impacted_event_rates s).2.event_rate_tree.total_rate *
          (update_impacted_event_rates s).2.random_generator.engine
            (update_impacted_event_rates s).2.random_generator.seed
            ((update_impacted_event_rates s).2.random_generator.drawn + 1)) with
    | error err => rfl
    | ok e =>
      simp only
      cases (update_impacted_event_rates s).2.get_impact e <;> rfl

theorem refresh_error_kind (s : RejectionFreeEventSelector C E) (err : Error)
    (h : (update_impacted_event_rates s).1 = .error err) :
    err = .UnknownEvent ∨ err = .InvalidRate := by
  cases hp : s.impacted_events_ptr with
  | none => simp [update_impacted_event_rates, hp] at h
  | some P =>
    rw [(refresh_pending s P hp).1] at h
    rcases hl : refresh_loop s.rate_calculator P s.event_rate_tree s.calculator_state with
      ⟨res, t1, c1⟩
    rw [hl] at h
    simp only at h
    subst h
    obtain ⟨pre, x, post, c2, _, _, hx, _⟩ :=
      refresh_loop_error s.rate_calculator P s.event_rate_tree t1 s.calculator_state c1 err hl
    rcases EventRateTree.update_rate_error t1 x _ err hx with ⟨_, he⟩ | ⟨_, _, he⟩
    · exact Or.inl he
    · exact Or.inr he

/-- The supporting result on the event draw applied to scenario S1 (impact function,
event-draw variate 0.25, query value 1): the event returned is the one at index 1 of
the construction order, `B`, with cumulative rates 1 before it and 3 up to it. -/
theorem select_event_interval_event_s1 :
    ∃ k, ∃ hk : k < s1_initial.event_rate_tree.order.length, ∃ ts,
      (select_event s1_initial).1 = .ok (s1_initial.event_rate_tree.order[k], ts) ∧
      s1_initial.event_rate_tree.cumulative_rate k ≤ 1 ∧
      1 < s1_initial.event_rate_tree.cumulative_rate (k + 1) ∧
      ∀ j, j < s1_initial.event_rate_tree.order.length →
        s1_initial.event_rate_tree.cumulative_rate j ≤ 1 →
        1 < s1_initial.event_rate_tree.cumulative_rate (j + 1) → j = k := by
  have hlookup : ∀ e ∈ s1_initial.event_rate_tree.order, s1_initial.get_impact e = .ok [] := by
    decide!
  exact select_event_interval_event s1_initial s1_initial.event_rate_tree 1 (by decide!)
    (by decide!) (by decide!) (by decide!) (by decide!)
    (stream_generator_inRange _ (by decide!)) (fun e he => ⟨[], hlookup e he⟩)

end RejectionFreeEventSelector

/-! ## The claims -/

open RejectionFreeEventSelector

/-- C1 (the code departs from the claim). For IDs `[A, B]` and the caller's impact map
`{A: [B]}`, construction succeeds and the member `impact_table` is the completed map
`{A: [B], B: []}`, in which the lookup of `B` yields the empty list; but the function
object `get_impact` reads the caller's map, so its lookup of `B` throws
`std::out_of_range`, and the `select_event` that selects `B` (query value 1.5) fails
with that exception instead of staging the empty list. -/
theorem C1_oracle_reads_callers_map :
    (c1_constructed.map fun s => (s.impact_table, ImpactTable.at s.impact_table Ev.B)) =
      .ok ([(Ev.A, [Ev.B]), (Ev.B, [])], .ok []) ∧
    (c1_constructed.map fun s =>
      (s.event_rate_tree.query_tree (2 * (3/4)), s.get_impact Ev.B, (select_event s).1)) =
      .ok (.ok Ev.B, .error .out_of_range, .error .out_of_range) := by
  decide!

/-- C2. With a pending list `P` of known events, a tree satisfying its invariants and a
calculator that gives valid rates for `P` and does not change its own state when
called for an event of `P`, the refresh at the start of `select_event` succeeds and produces a tree `t1` in
which every event of `P` stores the calculator's current value and every other event
stores what it stored before; the total rate of `t1` is the sum of these stored rates,
and it is this total rate that `select_event` puts into the time step and multiplies
with the event-draw variate for the query on `t1`. In scenario S3, where `total_rate()`
reads 2 before the call, the second `select_event` refreshes `B` to 5 and draws from
total rate 6. -/
theorem C2_refresh_precedes_total_rate {C E : Type} [DecidableEq E]
    (s : RejectionFreeEventSelector C E) (P : List E)
    (hP : s.impacted_events_ptr = some P)
    (hv : s.event_rate_tree.check_invariants)
    (hknown : ∀ e ∈ P, e ∈ s.event_rate_tree.order)
    (hstable : ∀ e ∈ P, (s.rate_calculator s.calculator_state e).2 = s.calculator_state)
    (hvalid : ∀ e ∈ P, 0 ≤ (s.rate_calculator s.calculator_state e).1) :
    (∃ t1, update_impacted_event_rates s =
        (.ok (), { s with event_rate_tree := t1, impacted_events_ptr := none }) ∧
      (∀ e ∈ P, t1.get_rate e = .ok (s.rate_calculator s.calculator_state e).1) ∧
      (∀ e, e ∉ P → t1.get_rate e = s.event_rate_tree.get_rate e) ∧
      t1.total_rate = t1.cumulative_rate t1.order.length ∧
      (select_event s).2.event_rate_tree = t1 ∧
      (select_event s).1 =
        (t1.query_tree (t1.total_rate *
            s.random_generator.engine s.random_generator.seed
              (s.random_generator.drawn + 1))).bind fun e =>
          (s.get_impact e).map fun _ =>
            (e, { variate := 1 - s.random_generator.engine s.random_generator.seed
                    s.random_generator.drawn,
                  total_rate := t1.total_rate })) ∧
    ((total_rate s3_dirty).1 = 2 ∧
      (select_event s3_dirty).1 = .ok (Ev.A, { variate := 1/2, total_rate := 6 }) ∧
      (get_rate (select_event s3_dirty).2 Ev.B).1 = .ok 5) := by
  obtain ⟨t1, hl, hv1, _, _, hg1⟩ := refresh_loop_ok s.rate_calculator s.calculator_state P
    s.event_rate_tree hv hknown hstable hvalid
  have hupd : update_impacted_event_rates s =
      (.ok (), { s with event_rate_tree := t1, impacted_events_ptr := none }) := by
    unfold update_impacted_event_rates
    simp only [hP, hl]
  have hok : (update_impacted_event_rates s).1 = .ok () := by rw [hupd]
  refine ⟨⟨t1, hupd, ?_, ?_, ?_, ?_, ?_⟩, by decide!⟩
  · intro e he
    rw [hg1 e]; simp [he]
  · intro e he
    rw [hg1 e]; simp [he]
  · exact EventRateTree.total_rate_eq_cumulative t1 hv1
  · rw [select_event_refresh_ok s hok, hupd]
    simp only
    cases t1.query_tree (t1.total_rate *
        s.random_generator.engine s.random_generator.seed (s.random_generator.drawn + 1)) with
    | error err => rfl
    | ok e => cases hg : s.get_impact e <;> simp [hg]
  · rw [select_event_refresh_ok s hok, hupd]
    simp only
    cases t1.query_tree (t1.total_rate *
        s.random_generator.engine s.random_generator.seed (s.random_generator.drawn + 1)) with
    | error err => rfl
    | ok e => cases hg : s.get_impact e <;> simp [hg, Except.bind, Except.map]

/-- Witness of C2: scenario S3 before its second `select_event`, with `[B]` pending. -/
theorem C2_refresh_precedes_total_rate_witness :
    s3_dirty.impacted_events_ptr = some [Ev.B] ∧
    s3_dirty.event_rate_tree.check_invariants ∧
    (∃ t1, update_impacted_event_rates s3_dirty =
        (.ok (), { s3_dirty with event_rate_tree := t1, impacted_events_ptr := none }) ∧
      (∀ e ∈ [Ev.B], t1.get_rate e =
        .ok (s3_dirty.rate_calculator s3_dirty.calculator_state e).1) ∧
      (∀ e, e ∉ [Ev.B] → t1.get_rate e = s3_dirty.event_rate_tree.get_rate e) ∧
      t1.total_rate = t1.cumulative_rate t1.order.length ∧
      (select_event s3_dirty).2.event_rate_tree = t1 ∧
      (select_event s3_dirty).1 =
        (t1.query_tree (t1.total_rate *
            s3_dirty.random_generator.engine s3_dirty.random_generator.seed
              (s3_dirty.random_generator.drawn + 1))).bind fun e =>
          (s3_dirty.get_impact e).map fun _ =>
            (e, { variate := 1 - s3_dirty.random_generator.engine
                    s3_dirty.random_generator.seed s3_dirty.random_generator.drawn,
                  total_rate := t1.total_rate })) :=
  ⟨by decide!, by decide!,
    (C2_refresh_precedes_total_rate s3_dirty [Ev.B] (by decide!) (by decide!) (by decide!)
      (by decide!) (by decide!)).1⟩

/-- C3. `total_rate()` and `get_rate(e)` return what the tree currently stores and
leave the selector, its tree and its pending impact list included, as it was: no
refresh is performed. In scenario S3, after the first `select_event` has returned `A`
and staged `[B]`, and with the calculator already giving 5 for `B`, `total_rate()`
reads 2 and `get_rate(B)` reads 1, while the refresh would bring the total rate to 6. -/
theorem C3_accessors_read_without_refresh {C E : Type} [DecidableEq E]
    (s : RejectionFreeEventSelector C E) (e : E) :
    total_rate s = (s.event_rate_tree.total_rate, s) ∧
    get_rate s e = (s.event_rate_tree.get_rate e, s) ∧
    ((select_event s3_initial).1 = .ok (Ev.A, { variate := 1/2, total_rate := 2 }) ∧
      s3_dirty.impacted_events_ptr = some [Ev.B] ∧
      (s3_dirty.rate_calculator s3_dirty.calculator_state Ev.B).1 = 5 ∧
      (total_rate s3_dirty).1 = 2 ∧
      (get_rate s3_dirty Ev.B).1 = .ok 1 ∧
      (total_rate s3_dirty).2.impacted_events_ptr = some [Ev.B] ∧
      (update_impacted_event_rates s3_dirty).2.event_rate_tree.total_rate = 6) := by
  refine ⟨rfl, rfl, ?_⟩
  decide!

/-- C4. When `select_event` succeeds and returns the event `e`, the impact oracle's
lookup of `e` has succeeded and the pending impact list after the call is exactly its
output, whatever was pending before the call. -/
theorem C4_pending_is_oracle_output {C E : Type} [DecidableEq E]
    (s : RejectionFreeEventSelector C E) (e : E) (ts : TimeStep)
    (h : (select_event s).1 = .ok (e, ts)) :
    ∃ v, s.get_impact e = .ok v ∧ (select_event s).2.impacted_events_ptr = some v :=
  (select_event_ok_inv s e ts h).2.2.2

/-- Witness of C4 in scenario S3 with `[B]` pending before the call: the second
`select_event` returns `A` and the pending list is the oracle's output for `A`. -/
theorem C4_pending_is_oracle_output_witness :
    (select_event s3_dirty).1 = .ok (Ev.A, { variate := 1/2, total_rate := 6 }) ∧
    ∃ v, s3_dirty.get_impact Ev.A = .ok v ∧
      (select_event s3_dirty).2.impacted_events_ptr = some v :=
  ⟨by decide!, C4_pending_is_oracle_output s3_dirty Ev.A { variate := 1/2, total_rate := 6 }
    (by decide!)⟩

/-- C5 (the code departs from the claim). Scenario S1, IDs `[A, B, C]` with rates
`[1, 2, 1]` and the empty impact map, event-draw variate 0.25: the cumulative rates are
1 after `A` and 3 after `B`, the tree query for `q = 1` yields `B`, but `select_event`
does not return `B`: the impact lookup for `B` reads the caller's empty map and throws
`std::out_of_range`. With the impact-function constructor the same scenario returns `B`
and then, for the variate 0.75, `C`. -/
theorem C5_s1_empty_map_select_event_throws :
    (s1_table.map fun s =>
      (s.event_rate_tree.cumulative_rate 1, s.event_rate_tree.cumulative_rate 2)) =
      .ok (1, 3) ∧
    (s1_table.map fun s =>
      (s.event_rate_tree.query_tree (4 * (1/4)), (select_event s).1)) =
      .ok (.ok Ev.B, .error .out_of_range) ∧
    (s1_function.map fun s => ((select_event s).1, (select_event (select_event s).2).1)) =
      .ok (.ok (Ev.B, { variate := 1/2, total_rate := 4 }),
           .ok (Ev.C, { variate := 1/2, total_rate := 4 })) := by
  decide!

/-- C6, the claim as stated fails: scenario S2 constructs and has total rate 0, yet its
first `select_event` does not fail with `ExhaustedRates`, and the random generator,
from which nothing had been drawn, has delivered two variates when the call ends. -/
theorem C6_s2_draws_without_check :
    (s2_constructed.map fun s =>
      ((total_rate s).1, s.random_generator.drawn,
        (select_event s).2.random_generator.drawn,
        decide ((select_event s).1 = .error .ExhaustedRates))) =
      .ok (0, 0, 2, false) := by
  decide!

/-- C6 as amended. `select_event` has no check of the total rate: whenever the refresh
succeeds, whatever the total rate `R` read afterwards (zero or negative included), the
call draws the time-step variate and the event-draw variate, so the generator has
advanced by two draws when the call ends, and its outcome is that of the tree query at
`q = R * u₂` followed by the impact lookup. -/
theorem C6_no_total_rate_check {C E : Type} [DecidableEq E]
    (s : RejectionFreeEventSelector C E)
    (hu : (update_impacted_event_rates s).1 = .ok ()) :
    (select_event s).2.random_generator.drawn = s.random_generator.drawn + 2 ∧
    (select_event s).1 =
      ((update_impacted_event_rates s).2.event_rate_tree.query_tree
        ((update_impacted_event_rates s).2.event_rate_tree.total_rate *
          s.random_generator.engine s.random_generator.seed
            (s.random_generator.drawn + 1))).bind fun e =>
        (s.get_impact e).map fun _ =>
          (e, { variate := 1 - s.random_generator.engine s.random_generator.seed
                  s.random_generator.drawn,
                total_rate := (update_impacted_event_rates s).2.event_rate_tree.total_rate }) := by
  rw [select_event_refresh_ok s hu]
  simp only [refresh_keeps_generator, refresh_keeps_get_impact]
  cases hq : (update_impacted_event_rates s).2.event_rate_tree.query_tree
      ((update_impacted_event_rates s).2.event_rate_tree.total_rate *
        s.random_generator.engine s.random_generator.seed
          (s.random_generator.drawn + 1)) with
  | error err => simp [Except.bind]
  | ok e => cases hg : s.get_impact e <;> simp [hg, Except.bind, Except.map]

/-- Witness of C6 as amended: scenario S2, where the total rate is 0. -/
theorem C6_no_total_rate_check_witness :
    (update_impacted_event_rates s2_initial).1 = .ok () ∧
    ((select_event s2_initial).2.random_generator.drawn =
      s2_initial.random_generator.drawn + 2 ∧
    (select_event s2_initial).1 =
      ((update_impacted_event_rates s2_initial).2.event_rate_tree.query_tree
        ((update_impacted_event_rates s2_initial).2.event_rate_tree.total_rate *
          s2_initial.random_generator.engine s2_initial.random_generator.seed
            (s2_initial.random_generator.drawn + 1))).bind fun e =>
        (s2_initial.get_impact e).map fun _ =>
          (e, { variate := 1 - s2_initial.random_generator.engine
                  s2_initial.random_generator.seed s2_initial.random_generator.drawn,
                total_rate :=
                  (update_impacted_event_rates s2_initial).2.event_rate_tree.total_rate })) :=
  ⟨by decide!, C6_no_total_rate_check s2_initial (by decide!)⟩

/-- C7, the claim as stated fails: in scenario S1 with a generator whose variates all lie
in `[0, 1)` and whose first variate is 0, `select_event` succeeds with the time step
`−ln(1) / 4`, which is 0 and not strictly positive. -/
theorem C7_zero_time_step :
    c7_initial.random_generator.InRange ∧
    ∃ ts : TimeStep, (select_event c7_initial).1 = .ok (Ev.B, ts) ∧
      -Real.log (ts.variate : ℝ) / (ts.total_rate : ℝ) = 0 := by
  refine ⟨stream_generator_inRange _ (by decide!), { variate := 1, total_rate := 4 },
    by decide!, ?_⟩
  simp

/-- C7 as amended. For every successful `select_event` with a positive total rate `R`
after the refresh and a generator whose variates lie in `[0, 1)`, the time step is
`−ln(u₁) / R` with `u₁ = 1 − u`, `u` being the first variate drawn; `u₁` lies in
`(0, 1]`, the time step is finite and not negative, and it is strictly positive exactly
when `u₁ < 1`, that is when the variate drawn is not 0. -/
theorem C7_time_step {C E : Type} [DecidableEq E]
    (s : RejectionFreeEventSelector C E) (e : E) (ts : TimeStep)
    (h : (select_event s).1 = .ok (e, ts))
    (hrange : s.random_generator.InRange)
    (hR : 0 < (update_impacted_event_rates s).2.event_rate_tree.total_rate) :
    ts.total_rate = (update_impacted_event_rates s).2.event_rate_tree.total_rate ∧
    ts.variate =
      1 - s.random_generator.engine s.random_generator.seed s.random_generator.drawn ∧
    0 < ts.variate ∧ ts.variate ≤ 1 ∧
    0 ≤ -Real.log (ts.variate : ℝ) / (ts.total_rate : ℝ) ∧
    (0 < -Real.log (ts.variate : ℝ) / (ts.total_rate : ℝ) ↔ ts.variate < 1) := by
  obtain ⟨_, _, hts, _⟩ := select_event_ok_inv s e ts h
  rw [refresh_keeps_generator] at hts
  have hr := hrange s.random_generator.seed s.random_generator.drawn
  have hvar : ts.variate =
      1 - s.random_generator.engine s.random_generator.seed s.random_generator.drawn := by
    rw [hts]
  have htot : ts.total_rate = (update_impacted_event_rates s).2.event_rate_tree.total_rate := by
    rw [hts]
  have hpos : 0 < ts.variate := by rw [hvar]; linarith [hr.2]
  have hle : ts.variate ≤ 1 := by rw [hvar]; linarith [hr.1]
  have hRr : (0 : ℝ) < (ts.total_rate : ℝ) := by rw [htot]; exact_mod_cast hR
  have hposr : (0 : ℝ) < (ts.variate : ℝ) := by exact_mod_cast hpos
  have hler : (ts.variate : ℝ) ≤ 1 := by exact_mod_cast hle
  refine ⟨htot, hvar, hpos, hle, ?_, ?_⟩
  · apply div_nonneg _ (le_of_lt hRr)
    linarith [Real.log_nonpos (le_of_lt hposr) hler]
  · constructor
    · intro hlt
      by_contra hnot
      have h1 : ts.variate = 1 := le_antisymm hle (not_lt.mp hnot)
      rw [h1] at hlt
      simp at hlt
    · intro hlt
      have hltr : (ts.variate : ℝ) < 1 := by exact_mod_cast hlt
      apply div_pos _ hRr
      linarith [Real.log_neg hposr hltr]

/-- Witness of C7 as amended: the first `select_event` of scenario S3, with time-step
variate 0.5 and total rate 2. -/
theorem C7_time_step_witness :
    (select_event s3_initial).1 = .ok (Ev.A, { variate := 1/2, total_rate := 2 }) ∧
    s3_initial.random_generator.InRange ∧
    0 < (update_impacted_event_rates s3_initial).2.event_rate_tree.total_rate ∧
    0 < -Real.log (((1/2 : ℚ)) : ℝ) / (((2 : ℚ)) : ℝ) :=
  ⟨by decide!, stream_generator_inRange _ (by decide!), by decide!,
    (C7_time_step s3_initial Ev.A { variate := 1/2, total_rate := 2 } (by decide!)
      (stream_generator_inRange _ (by decide!)) (by decide!)).2.2.2.2.2.mpr (by decide!)⟩

/-- C8, the claim as stated fails: with `[B, Z]` pending, `Z` unknown to the tree and
the calculator giving 5 for `B`, `select_event` fails with `UnknownEvent`, and the
stored rate of `B`, which was 1 before the call, is 5 after it. -/
theorem C8_earlier_update_survives_failure :
    s8_dirty.impacted_events_ptr = some [Ev.B, Ev.Z] ∧
    (select_event s8_dirty).1 = .error .UnknownEvent ∧
    (get_rate s8_dirty Ev.B).1 = .ok 1 ∧
    (get_rate (select_event s8_dirty).2 Ev.B).1 = .ok 5 := by
  decide!

/-- C8 as amended. When a rate update fails during the refresh at the start of
`select_event` (tree satisfying its invariants, calculator not changing its own state
when called for a pending event), `select_event` fails with the error of that update, and the pending list
splits at the failing element `x`: every element before `x` stores the calculator's
value, every event that is not among the elements before `x` stores what it stored
before the call, and the failing update itself has changed nothing (it fails again on
the tree as left). -/
theorem C8_failed_refresh_keeps_earlier_updates {C E : Type} [DecidableEq E]
    (s : RejectionFreeEventSelector C E) (P : List E) (err : Error)
    (hP : s.impacted_events_ptr = some P)
    (hv : s.event_rate_tree.check_invariants)
    (hstable : ∀ e ∈ P, (s.rate_calculator s.calculator_state e).2 = s.calculator_state)
    (h : (update_impacted_event_rates s).1 = .error err) :
    (select_event s).1 = .error err ∧
    ∃ pre x post, P = pre ++ x :: post ∧
      (select_event s).2.event_rate_tree.update_rate x
        (s.rate_calculator s.calculator_state x).1 = .error err ∧
      (∀ e ∈ pre, (select_event s).2.event_rate_tree.get_rate e =
        .ok (s.rate_calculator s.calculator_state e).1) ∧
      (∀ e, e ∉ pre → (select_event s).2.event_rate_tree.get_rate e =
        s.event_rate_tree.get_rate e) := by
  rw [select_event_refresh_error s err h]
  refine ⟨rfl, ?_⟩
  obtain ⟨h1, h2, _⟩ := refresh_pending s P hP
  rw [h1] at h
  simp only
  rw [h2]
  rcases hl : refresh_loop s.rate_calculator P s.event_rate_tree s.calculator_state with
    ⟨res, t1, c1⟩
  rw [hl] at h
  simp only at h
  subst h
  obtain ⟨pre, x, post, c0, hsplit, hpre, hx, _⟩ :=
    refresh_loop_error s.rate_calculator P s.event_rate_tree t1 s.calculator_state c1 err hl
  have hst : ∀ e ∈ pre, (s.rate_calculator s.calculator_state e).2 = s.calculator_state :=
    fun e he => hstable e (by simp [hsplit, he])
  have hk := refresh_loop_ok_known s.rate_calculator s.calculator_state pre
    s.event_rate_tree t1 c0 hst hpre
  obtain ⟨t2, hl2, _, _, _, hg⟩ := refresh_loop_ok s.rate_calculator s.calculator_state pre
    s.event_rate_tree hv (fun e he => (hk e he).1) hst (fun e he => (hk e he).2)
  rw [hpre] at hl2
  simp only [Prod.mk.injEq, true_and] at hl2
  obtain ⟨ht, hc⟩ := hl2
  subst ht hc
  refine ⟨pre, x, post, hsplit, hx, ?_, ?_⟩
  · intro e he
    rw [hg e]; simp [he]
  · intro e he
    rw [hg e]; simp [he]

/-- Witness of C8 as amended: `[B, Z]` pending with `Z` unknown to the tree. -/
theorem C8_failed_refresh_keeps_earlier_updates_witness :
    s8_dirty.impacted_events_ptr = some [Ev.B, Ev.Z] ∧
    s8_dirty.event_rate_tree.check_invariants ∧
    (update_impacted_event_rates s8_dirty).1 = .error .UnknownEvent ∧
    ((select_event s8_dirty).1 = .error .UnknownEvent ∧
    ∃ pre x post, [Ev.B, Ev.Z] = pre ++ x :: post ∧
      (select_event s8_dirty).2.event_rate_tree.update_rate x
        (s8_dirty.rate_calculator s8_dirty.calculator_state x).1 = .error .UnknownEvent ∧
      (∀ e ∈ pre, (select_event s8_dirty).2.event_rate_tree.get_rate e =
        .ok (s8_dirty.rate_calculator s8_dirty.calculator_state e).1) ∧
      (∀ e, e ∉ pre → (select_event s8_dirty).2.event_rate_tree.get_rate e =
        s8_dirty.event_rate_tree.get_rate e)) :=
  ⟨by decide!, by decide!, by decide!,
    C8_failed_refresh_keeps_earlier_updates s8_dirty [Ev.B, Ev.Z] .UnknownEvent
      (by decide!) (by decide!) (by decide!) (by decide!)⟩

/-- C9. When a rate update fails during the refresh at the start of `select_event`,
`select_event` fails with that error and the pending impact list is the same non-empty
list as before the call; the refresh of the next `select_event` is the update loop run
over that same list from its first element. -/
theorem C9_failed_refresh_keeps_pending {C E : Type} [DecidableEq E]
    (s : RejectionFreeEventSelector C E) (err : Error)
    (h : (update_impacted_event_rates s).1 = .error err) :
    (select_event s).1 = .error err ∧
    ∃ P, P ≠ [] ∧ s.impacted_events_ptr = some P ∧
      (select_event s).2.impacted_events_ptr = some P ∧
      (update_impacted_event_rates (select_event s).2).1 =
        (refresh_loop (select_event s).2.rate_calculator P
          (select_event s).2.event_rate_tree (select_event s).2.calculator_state).1 := by
  rw [select_event_refresh_error s err h]
  refine ⟨rfl, ?_⟩
  cases hp : s.impacted_events_ptr with
  | none => simp [update_impacted_event_rates, hp] at h
  | some P =>
    have hne : P ≠ [] := by
      rintro rfl
      simp [update_impacted_event_rates, hp, refresh_loop] at h
    have hkeep : (update_impacted_event_rates s).2.impacted_events_ptr = some P := by
      unfold update_impacted_event_rates at h ⊢
      simp only [hp] at h ⊢
      rcases hl : refresh_loop s.rate_calculator P s.event_rate_tree s.calculator_state with
        ⟨res, t, c⟩
      rw [hl] at h
      cases res with
      | error e1 => simp
      | ok u => simp at h
    refine ⟨P, hne, rfl, hkeep, ?_⟩
    simp only
    generalize update_impacted_event_rates s = r at hkeep
    rcases r with ⟨res, s1⟩
    simp only at hkeep ⊢
    unfold update_impacted_event_rates
    simp only [hkeep]
    rcases refresh_loop s1.rate_calculator P s1.event_rate_tree s1.calculator_state with
      ⟨res2, t, c⟩
    cases res2 <;> rfl

/-- Witness of C9: with `[B, Z]` pending and `Z` unknown to the tree, the refresh
fails with `UnknownEvent` and `[B, Z]` stays pending. -/
theorem C9_failed_refresh_keeps_pending_witness :
    (update_impacted_event_rates s8_dirty).1 = .error .UnknownEvent ∧
    ((select_event s8_dirty).1 = .error .UnknownEvent ∧
    ∃ P, P ≠ [] ∧ s8_dirty.impacted_events_ptr = some P ∧
      (select_event s8_dirty).2.impacted_events_ptr = some P ∧
      (update_impacted_event_rates (select_event s8_dirty).2).1 =
        (refresh_loop (select_event s8_dirty).2.rate_calculator P
          (select_event s8_dirty).2.event_rate_tree
          (select_event s8_dirty).2.calculator_state).1) :=
  ⟨by decide!, C9_failed_refresh_keeps_pending s8_dirty .UnknownEvent (by decide!)⟩

/-- C10. With an empty event ID list both constructors fail, whatever the rate
calculator, the impact map or impact function and the random generator are: no
selector is produced. -/
theorem C10_empty_id_list_rejected {C E : Type} [DecidableEq E]
    (rate_calculator : C → E → ℚ × C) (calculator_state : C) (impact_table : ImpactTable E)
    (get_impact_f : E → List E) (random_generator : RandomGenerator) :
    (∃ err, construct_table rate_calculator calculator_state [] impact_table
        random_generator = .error err) ∧
    (∃ err, construct_function rate_calculator calculator_state [] get_impact_f
        random_generator = .error err) := by
  constructor
  · exact ⟨.EmptyEventSet, by
      simp [construct_table, calculate_rates, EventRateTree.construct]⟩
  · exact ⟨.EmptyEventSet, by
      simp [construct_function, calculate_rates, EventRateTree.construct]⟩

/-- C11. `fill_impact_table(M, ids)` returns a map in which an event is a key exactly
when it is a key of `M` or an element of `ids`; every key of `M` is mapped to the same
list as in `M`; every element of `ids` that is not a key of `M` is mapped to the empty
list. The result is the caller's entries followed by added entries that are all empty:
the function works on its by-value copy, the caller's map `M` is the same before and
after. -/
theorem C11_fill_impact_table_completes {E : Type} [DecidableEq E] (M : ImpactTable E)
    (ids : List E) (e : E) :
    ((ImpactTable.find (fill_impact_table M ids) e).isSome ↔
      ((ImpactTable.find M e).isSome ∨ e ∈ ids)) ∧
    (∀ v, ImpactTable.find M e = some v →
      ImpactTable.find (fill_impact_table M ids) e = some v) ∧
    (ImpactTable.find M e = none → e ∈ ids →
      ImpactTable.find (fill_impact_table M ids) e = some []) ∧
    (∃ added : ImpactTable E, fill_impact_table M ids = M ++ added ∧
      ∀ p ∈ added, p.2 = []) := by
  refine ⟨?_, ?_, ?_, fill_impact_table_extends M ids⟩
  · rw [fill_impact_table_find]
    cases hf : ImpactTable.find M e with
    | some v => simp
    | none => by_cases he : e ∈ ids <;> simp [he]
  · intro v hv
    rw [fill_impact_table_find, hv]; simp
  · intro hn he
    rw [fill_impact_table_find, hn]; simp [he]

/-- C12. For a non-empty list of distinct event IDs and a calculator whose rates for
them are valid, both constructors succeed, and in the selector they yield `get_rate`
of the IDs, in list order, gives the values the calculator returned for them,
`total_rate()` is the sum of those values, the pending impact list is empty (null
pointer), and the calculator is in the state its successive calls for the IDs left
it in. With the calculator instrumented by a log of its invocations, the log after
construction is exactly the ID list: one call per ID, in list order. -/
theorem C12_state_after_construction {C E : Type} [DecidableEq E]
    (rc : C → E → ℚ × C) (c0 : C) (ids : List E) (M : ImpactTable E) (f : E → List E)
    (g : RandomGenerator) (hne : ids ≠ []) (hnd : ids.Nodup)
    (hvalid : ∀ r ∈ (calculate_rates rc c0 ids).1, 0 ≤ r) :
    (construct_table rc c0 ids M g).map (fun s =>
        ((ids.map fun e => (get_rate s e).1), (total_rate s).1, s.impacted_events_ptr,
          s.calculator_state)) =
      .ok ((calculate_rates rc c0 ids).1.map Except.ok, (calculate_rates rc c0 ids).1.sum,
        none, (calculate_rates rc c0 ids).2) ∧
    (construct_function rc c0 ids f g).map (fun s =>
        ((ids.map fun e => (get_rate s e).1), (total_rate s).1, s.impacted_events_ptr,
          s.calculator_state)) =
      .ok ((calculate_rates rc c0 ids).1.map Except.ok, (calculate_rates rc c0 ids).1.sum,
        none, (calculate_rates rc c0 ids).2) ∧
    (construct_table (logged rc) (c0, []) ids M g).map (fun s => s.calculator_state.2) =
      .ok ids ∧
    (construct_function (logged rc) (c0, []) ids f g).map (fun s => s.calculator_state.2) =
      .ok ids := by
  have hvl : ∀ r ∈ (calculate_rates (logged rc) (c0, []) ids).1, 0 ≤ r := by
    rw [calculate_rates_logged]; exact hvalid
  obtain ⟨t, ht, _, _, hget, htot⟩ := EventRateTree.construct_ok ids
    (calculate_rates rc c0 ids).1 hne hnd (calculate_rates_length rc c0 ids) hvalid
  obtain ⟨t1, ht1, hc1⟩ := construct_table_ok rc c0 ids M g hne hnd hvalid
  obtain ⟨t2, ht2, hc2⟩ := construct_function_ok rc c0 ids f g hne hnd hvalid
  obtain ⟨t3, _, hc3⟩ := construct_table_ok (logged rc) (c0, []) ids M g hne hnd hvl
  obtain ⟨t4, _, hc4⟩ := construct_function_ok (logged rc) (c0, []) ids f g hne hnd hvl
  rw [ht] at ht1 ht2
  cases ht1
  cases ht2
  refine ⟨?_, ?_, ?_, ?_⟩
  · rw [hc1]
    simp only [Except.map, get_rate, total_rate]
    rw [← hget, htot]
  · rw [hc2]
    simp only [Except.map, get_rate, total_rate]
    rw [← hget, htot]
  · rw [hc3]
    simp [Except.map, calculate_rates_logged]
  · rw [hc4]
    simp [Except.map, calculate_rates_logged]

/-- Witness of C12: the IDs `[A, B]` with the calculator of scenario S3 in state 0. -/
theorem C12_state_after_construction_witness :
    [Ev.A, Ev.B] ≠ [] ∧ [Ev.A, Ev.B].Nodup ∧
    (∀ r ∈ (calculate_rates s3_rates 0 [Ev.A, Ev.B]).1, 0 ≤ r) ∧
    ((construct_table s3_rates 0 [Ev.A, Ev.B] [(Ev.A, [Ev.B])]
        (stream_generator [1/2])).map (fun s =>
        (([Ev.A, Ev.B].map fun e => (get_rate s e).1), (total_rate s).1,
          s.impacted_events_ptr, s.calculator_state)) =
      .ok ((calculate_rates s3_rates 0 [Ev.A, Ev.B]).1.map Except.ok,
        (calculate_rates s3_rates 0 [Ev.A, Ev.B]).1.sum, none,
        (calculate_rates s3_rates 0 [Ev.A, Ev.B]).2) ∧
    (construct_function s3_rates 0 [Ev.A, Ev.B] impact_with_unknown
        (stream_generator [1/2])).map (fun s =>
        (([Ev.A, Ev.B].map fun e => (get_rate s e).1), (total_rate s).1,
          s.impacted_events_ptr, s.calculator_state)) =
      .ok ((calculate_rates s3_rates 0 [Ev.A, Ev.B]).1.map Except.ok,
        (calculate_rates s3_rates 0 [Ev.A, Ev.B]).1.sum, none,
        (calculate_rates s3_rates 0 [Ev.A, Ev.B]).2) ∧
    (construct_table (logged s3_rates) (0, []) [Ev.A, Ev.B] [(Ev.A, [Ev.B])]
        (stream_generator [1/2])).map (fun s => s.calculator_state.2) = .ok [Ev.A, Ev.B] ∧
    (construct_function (logged s3_rates) (0, []) [Ev.A, Ev.B] impact_with_unknown
        (stream_generator [1/2])).map (fun s => s.calculator_state.2) = .ok [Ev.A, Ev.B]) :=
  ⟨by decide, by decide, by decide!,
    C12_state_after_construction s3_rates 0 [Ev.A, Ev.B] [(Ev.A, [Ev.B])] impact_with_unknown
      (stream_generator [1/2]) (by decide) (by decide) (by decide!)⟩

/-- C13. When the refresh of a `select_event` succeeds, the tree query selects `e`, and
the impact oracle returns for `e` a list `v` that contains an event `x` unknown to the
tree (the calculator giving valid rates for the events of `v`), this `select_event`
succeeds, returns `e` and stages `v` unchecked; the next `select_event`, whatever state
the caller has given the calculator in between, fails with `UnknownEvent` in its refresh
and returns no event. -/
theorem C13_unknown_impact_surfaces_at_next_refresh {C E : Type} [DecidableEq E]
    (s : RejectionFreeEventSelector C E) (e x : E) (v : List E) (c1 : C)
    (hu : (update_impacted_event_rates s).1 = .ok ())
    (hq : (update_impacted_event_rates s).2.event_rate_tree.query_tree
      ((update_impacted_event_rates s).2.event_rate_tree.total_rate *
        s.random_generator.engine s.random_generator.seed
          (s.random_generator.drawn + 1)) = .ok e)
    (hg : s.get_impact e = .ok v) (hx : x ∈ v) (hunknown : x ∉ s.event_rate_tree.order)
    (hvalid : ∀ c, ∀ y ∈ v, 0 ≤ (s.rate_calculator c y).1) :
    (select_event s).1 = .ok (e,
      { variate := 1 - s.random_generator.engine s.random_generator.seed
          s.random_generator.drawn,
        total_rate := (update_impacted_event_rates s).2.event_rate_tree.total_rate }) ∧
    (select_event s).2.impacted_events_ptr = some v ∧
    (update_impacted_event_rates (select_event s).2).1 = .error .UnknownEvent ∧
    (select_event (select_event s).2).1 = .error .UnknownEvent ∧
    (select_event { (select_event s).2 with calculator_state := c1 }).1 =
      .error .UnknownEvent := by
  obtain ⟨hres, hptr, htree, hrc, _, _⟩ := select_event_ok_state s e v hu hq hg
  have hord : (select_event s).2.event_rate_tree.order = s.event_rate_tree.order := by
    rw [htree, refresh_order]
  have hfail : ∀ c : C,
      (update_impacted_event_rates { (select_event s).2 with calculator_state := c }).1 =
        .error .UnknownEvent := by
    intro c
    rw [(refresh_pending { (select_event s).2 with calculator_state := c } v hptr).1]
    apply refresh_loop_unknown _ _ _ _ x hx
    · simpa [hord] using hunknown
    · intro c2 y hy
      simpa [hrc] using hvalid c2 y hy
  have hsame := hfail (select_event s).2.calculator_state
  refine ⟨hres, hptr, hsame, ?_, ?_⟩
  · rw [select_event_refresh_error _ _ hsame]
  · rw [select_event_refresh_error _ _ (hfail c1)]

/-- Witness of C13: the impact function returns `[B, Z]` for `A`, and `Z` is not an
event of the tree over `[A, B]`. -/
theorem C13_unknown_impact_surfaces_at_next_refresh_witness :
    (update_impacted_event_rates s8_initial).1 = .ok () ∧
    s8_initial.get_impact Ev.A = .ok [Ev.B, Ev.Z] ∧
    Ev.Z ∉ s8_initial.event_rate_tree.order ∧
    ((select_event s8_initial).1 = .ok (Ev.A,
      { variate := 1 - s8_initial.random_generator.engine s8_initial.random_generator.seed
          s8_initial.random_generator.drawn,
        total_rate := (update_impacted_event_rates s8_initial).2.event_rate_tree.total_rate }) ∧
    (select_event s8_initial).2.impacted_events_ptr = some [Ev.B, Ev.Z] ∧
    (update_impacted_event_rates (select_event s8_initial).2).1 = .error .UnknownEvent ∧
    (select_event (select_event s8_initial).2).1 = .error .UnknownEvent ∧
    (select_event { (select_event s8_initial).2 with calculator_state := 1 }).1 =
      .error .UnknownEvent) :=
  ⟨by decide!, by decide!, by decide!,
    C13_unknown_impact_surfaces_at_next_refresh s8_initial Ev.A Ev.Z [Ev.B, Ev.Z] 1
      (by decide!) (by decide!) (by decide!) (by decide) (by decide!)
      (fun c y _ => s3_rates_nonneg c y)⟩

/-- C14. When the refresh succeeds, a second refresh right after it is a no-operation:
it succeeds and returns the selector exactly as the first refresh left it, tree,
pending pointer (null) and calculator state included, so the calculator is not invoked.
In scenario S3 with the calculator's invocations logged, the log is `[A, B]` before the
first refresh, `[A, B, B]` after it and still `[A, B, B]` after the second. -/
theorem C14_refresh_idempotent {C E : Type} [DecidableEq E]
    (s : RejectionFreeEventSelector C E)
    (hu : (update_impacted_event_rates s).1 = .ok ()) :
    update_impacted_event_rates (update_impacted_event_rates s).2 =
      (.ok (), (update_impacted_event_rates s).2) ∧
    (s14_dirty.calculator_state.2 = [Ev.A, Ev.B] ∧
      (update_impacted_event_rates s14_dirty).2.calculator_state.2 = [Ev.A, Ev.B, Ev.B] ∧
      (update_impacted_event_rates
        (update_impacted_event_rates s14_dirty).2).2.calculator_state.2 =
          [Ev.A, Ev.B, Ev.B]) := by
  refine ⟨?_, by decide!⟩
  have hptr := refresh_ok_ptr s hu
  generalize (update_impacted_event_rates s).2 = s1 at hptr
  simp [update_impacted_event_rates, hptr]

/-- Witness of C14: scenario S3 with `[B]` pending, where the first refresh succeeds. -/
theorem C14_refresh_idempotent_witness :
    (update_impacted_event_rates s14_dirty).1 = .ok () ∧
    update_impacted_event_rates (update_impacted_event_rates s14_dirty).2 =
      (.ok (), (update_impacted_event_rates s14_dirty).2) :=
  ⟨by decide!, (C14_refresh_idempotent s14_dirty (by decide!)).1⟩

/-- C15. Let the calculator be a pure function `f` of the event ID during the refresh:
along the calculator states a refresh passes through (a set `I` of states that holds the
current one and is closed under calls), a call for `e` returns `f e`, a valid rate. Then
for a pending list `P` of known events and for `Q` a permutation of `P` or `P` with its
duplicates removed, the refresh succeeds for both lists and leaves the same stored rate
for every event and the same total rate. -/
theorem C15_refresh_order_and_multiplicity {C E : Type} [DecidableEq E]
    (s : RejectionFreeEventSelector C E) (f : E → ℚ) (I : C → Prop) (P Q : List E)
    (hv : s.event_rate_tree.check_invariants)
    (hknown : ∀ e ∈ P, e ∈ s.event_rate_tree.order)
    (hI : I s.calculator_state)
    (hstep : ∀ c, I c → ∀ e ∈ P, I (s.rate_calculator c e).2)
    (hpure : ∀ c, I c → ∀ e ∈ P, (s.rate_calculator c e).1 = f e)
    (hvalid : ∀ e ∈ P, 0 ≤ f e)
    (hQ : Q.Perm P ∨ Q = P.dedup) :
    (update_impacted_event_rates { s with impacted_events_ptr := some P }).1 = .ok () ∧
    (update_impacted_event_rates { s with impacted_events_ptr := some Q }).1 = .ok () ∧
    (∀ e,
      (update_impacted_event_rates
        { s with impacted_events_ptr := some Q }).2.event_rate_tree.get_rate e =
      (update_impacted_event_rates
        { s with impacted_events_ptr := some P }).2.event_rate_tree.get_rate e) ∧
    (update_impacted_event_rates
        { s with impacted_events_ptr := some Q }).2.event_rate_tree.total_rate =
      (update_impacted_event_rates
        { s with impacted_events_ptr := some P }).2.event_rate_tree.total_rate := by
  have hmem : ∀ e, e ∈ Q ↔ e ∈ P := by
    intro e
    rcases hQ with h | h
    · exact h.mem_iff
    · rw [h]; exact List.mem_dedup
  obtain ⟨tP, cP, hlP, hvP, hoP, hgP⟩ := refresh_loop_pure s.rate_calculator f I P
    s.event_rate_tree s.calculator_state hv hknown hI hstep hpure hvalid
  obtain ⟨tQ, cQ, hlQ, hvQ, hoQ, hgQ⟩ := refresh_loop_pure s.rate_calculator f I Q
    s.event_rate_tree s.calculator_state hv (fun e he => hknown e ((hmem e).mp he)) hI
    (fun c hc e he => hstep c hc e ((hmem e).mp he))
    (fun c hc e he => hpure c hc e ((hmem e).mp he))
    (fun e he => hvalid e ((hmem e).mp he))
  obtain ⟨p1, p2, _⟩ := refresh_pending { s with impacted_events_ptr := some P } P rfl
  obtain ⟨q1, q2, _⟩ := refresh_pending { s with impacted_events_ptr := some Q } Q rfl
  simp only [hlP] at p1 p2
  simp only [hlQ] at q1 q2
  have hsame : ∀ e, tQ.get_rate e = tP.get_rate e := by
    intro e
    rw [hgQ e, hgP e]
    by_cases he : e ∈ P
    · simp [he, (hmem e).mpr he]
    · have heQ : e ∉ Q := fun h => he ((hmem e).mp h)
      simp [he, heQ]
  rw [p1, q1, p2, q2]
  exact ⟨rfl, rfl, hsame, total_rate_congr tQ tP hvQ hvP (hoQ.trans hoP.symm) hsame⟩

/-- Witness of C15: scenario S3 in system state 1 with the pending list `[B, A, B]`,
compared with the list without its duplicates. -/
theorem C15_refresh_order_and_multiplicity_witness :
    s3_dirty.event_rate_tree.check_invariants ∧
    (∀ e ∈ [Ev.B, Ev.A, Ev.B], e ∈ s3_dirty.event_rate_tree.order) ∧
    (update_impacted_event_rates
      { s3_dirty with impacted_events_ptr := some [Ev.B, Ev.A, Ev.B] }).1 = .ok () ∧
    (update_impacted_event_rates
      { s3_dirty with impacted_events_ptr := some [Ev.B, Ev.A, Ev.B].dedup }).1 = .ok () ∧
    (∀ e,
      (update_impacted_event_rates
        { s3_dirty with
          impacted_events_ptr := some [Ev.B, Ev.A, Ev.B].dedup }).2.event_rate_tree.get_rate e =
      (update_impacted_event_rates
        { s3_dirty with
          impacted_events_ptr := some [Ev.B, Ev.A, Ev.B] }).2.event_rate_tree.get_rate e) ∧
    (update_impacted_event_rates
        { s3_dirty with
          impacted_events_ptr := some [Ev.B, Ev.A, Ev.B].dedup }).2.event_rate_tree.total_rate =
      (update_impacted_event_rates
        { s3_dirty with
          impacted_events_ptr := some [Ev.B, Ev.A, Ev.B] }).2.event_rate_tree.total_rate :=
  ⟨by decide!, by decide!,
    C15_refresh_order_and_multiplicity s3_dirty
      (fun e => (s3_dirty.rate_calculator 1 e).1) (fun c => c = 1)
      [Ev.B, Ev.A, Ev.B] [Ev.B, Ev.A, Ev.B].dedup (by decide!) (by decide!) (by decide!)
      (fun c hc => by subst hc; decide!) (fun c hc e _ => by subst hc; rfl)
      (by decide!) (Or.inr rfl)⟩

/-- C16. In every state reachable from a selector that one of the constructors has
produced for the ID list `ids` (by `select_event` calls, successful or not, accessor
calls and changes of the calculator's state), `get_rate` succeeds for every construction
ID, `total_rate()` is the sum of these stored rates over the construction IDs, and it is
not negative. -/
theorem C16_total_rate_is_sum_of_rates {C E : Type} [DecidableEq E]
    (rc : C → E → ℚ × C) (c0 : C) (ids : List E) (M : ImpactTable E) (f : E → List E)
    (g : RandomGenerator) (s0 s : RejectionFreeEventSelector C E)
    (hc : construct_table rc c0 ids M g = .ok s0 ∨ construct_function rc c0 ids f g = .ok s0)
    (hr : Reachable s0 s) :
    ∃ rates : List ℚ, (ids.map fun e => (get_rate s e).1) = rates.map Except.ok ∧
      (total_rate s).1 = rates.sum ∧ 0 ≤ (total_rate s).1 := by
  obtain ⟨hv, ho, _⟩ := reachable_invariants s0 s ids
    (constructed_invariants rc c0 ids M f g s0 hc) hr
  refine ⟨ids.map s.event_rate_tree.rate_of, ?_, ?_, EventRateTree.total_rate_nonneg _ hv⟩
  · simp only [get_rate, List.map_map]
    apply List.map_congr_left
    intro e he
    exact EventRateTree.get_rate_mem _ e (ho ▸ he)
  · simp only [total_rate]
    rw [EventRateTree.total_rate_eq_cumulative _ hv]
    simp [EventRateTree.cumulative_rate, ho]

/-- Witness of C16: scenario S3 after its first `select_event` and the change of the
system state, a state reached from the constructed selector. -/
theorem C16_total_rate_is_sum_of_rates_witness :
    construct_table s3_rates 0 [Ev.A, Ev.B] [(Ev.A, [Ev.B])]
      (stream_generator [1/2, 1/4, 1/2, 1/12]) = .ok s3_initial ∧
    Reachable s3_initial s3_dirty ∧
    ∃ rates : List ℚ, ([Ev.A, Ev.B].map fun e => (get_rate s3_dirty e).1) =
        rates.map Except.ok ∧
      (total_rate s3_dirty).1 = rates.sum ∧ 0 ≤ (total_rate s3_dirty).1 :=
  ⟨Except.eq_ok_toOption_get s3_constructed _,
    Reachable.calculator _ 1 (Reachable.select_event _ Reachable.start),
    C16_total_rate_is_sum_of_rates s3_rates 0 [Ev.A, Ev.B] [(Ev.A, [Ev.B])] (fun _ => [])
      (stream_generator [1/2, 1/4, 1/2, 1/12]) s3_initial s3_dirty
      (Or.inl (Except.eq_ok_toOption_get s3_constructed _))
      (Reachable.calculator _ 1 (Reachable.select_event _ Reachable.start))⟩

/-- C17. After `reseed_generator(s)` with an unsigned 64-bit seed `s`, `get_seed()`
returns `s`, whatever seed the generator had before; in the loop of the unit test, which
reseeds with 0, 1, …, 99 in turn, `get_seed()` returns `i` right after the reseeding
with `i`. -/
theorem C17_get_seed_after_reseed (g : RandomGenerator) (s : Nat) (hs : s < 2 ^ 64) :
    (g.reseed_generator s).get_seed = s ∧
    ∀ i, i < 100 →
      ((List.range (i + 1)).foldl RandomGenerator.reseed_generator g).get_seed = i := by
  constructor
  · simp only [RandomGenerator.reseed_generator, RandomGenerator.get_seed]
    exact Nat.mod_eq_of_lt hs
  · intro i hi
    rw [List.range_succ, List.foldl_append]
    simp only [List.foldl_cons, List.foldl_nil, RandomGenerator.reseed_generator,
      RandomGenerator.get_seed]
    apply Nat.mod_eq_of_lt
    omega

/-- Witness of C17: reseeding a generator of seed 0 with the seed 12345. -/
theorem C17_get_seed_after_reseed_witness :
    12345 < 2 ^ 64 ∧
    (((stream_generator []).reseed_generator 12345).get_seed = 12345 ∧
    ∀ i, i < 100 →
      ((List.range (i + 1)).foldl RandomGenerator.reseed_generator
        (stream_generator [])).get_seed = i) :=
  ⟨by decide, C17_get_seed_after_reseed (stream_generator []) 12345 (by decide)⟩

/-- C18. A successful `select_event` takes exactly two variates from the random source:
the generator ends two draws further, the first variate drawn only enters the time step
and the second only the query value. Run with another generator `g` in the same selector
state: if `g` delivers the same second variate, the outcome has the same event (or the
same failure); if `g` delivers the same first variate, two successful runs return the
same time step; if it delivers the same two variates, the two runs return the same
result and end with the same tree, pending list and calculator state. In scenario S1,
changing only the first variate from 0.5 to 0.9 keeps the event `B` and changes the time
step, changing only the second from 0.25 to 0.75 keeps the time step and gives `C`. -/
theorem C18_two_variates_in_fixed_order {C E : Type} [DecidableEq E]
    (s : RejectionFreeEventSelector C E) (g : RandomGenerator) :
    (∀ e ts, (select_event s).1 = .ok (e, ts) →
      (select_event s).2.random_generator =
        { s.random_generator with drawn := s.random_generator.drawn + 2 } ∧
      ts.variate =
        1 - s.random_generator.engine s.random_generator.seed s.random_generator.drawn ∧
      (update_impacted_event_rates s).2.event_rate_tree.query_tree
        (ts.total_rate * s.random_generator.engine s.random_generator.seed
          (s.random_generator.drawn + 1)) = .ok e) ∧
    (g.engine g.seed (g.drawn + 1) =
        s.random_generator.engine s.random_generator.seed (s.random_generator.drawn + 1) →
      (select_event { s with random_generator := g }).1.map Prod.fst =
        (select_event s).1.map Prod.fst) ∧
    (g.engine g.seed g.drawn =
        s.random_generator.engine s.random_generator.seed s.random_generator.drawn →
      ∀ e ts e1 ts1, (select_event s).1 = .ok (e, ts) →
        (select_event { s with random_generator := g }).1 = .ok (e1, ts1) → ts1 = ts) ∧
    (g.engine g.seed g.drawn =
        s.random_generator.engine s.random_generator.seed s.random_generator.drawn →
      g.engine g.seed (g.drawn + 1) =
        s.random_generator.engine s.random_generator.seed (s.random_generator.drawn + 1) →
      (select_event { s with random_generator := g }).1 = (select_event s).1 ∧
      (select_event { s with random_generator := g }).2.event_rate_tree =
        (select_event s).2.event_rate_tree ∧
      (select_event { s with random_generator := g }).2.impacted_events_ptr =
        (select_event s).2.impacted_events_ptr ∧
      (select_event { s with random_generator := g }).2.calculator_state =
        (select_event s).2.calculator_state) ∧
    ((select_event s1_initial).1 = .ok (Ev.B, { variate := 1/2, total_rate := 4 }) ∧
      (select_event { s1_initial with random_generator := stream_generator [9/10, 1/4] }).1 =
        .ok (Ev.B, { variate := 1/10, total_rate := 4 }) ∧
      (select_event { s1_initial with random_generator := stream_generator [1/2, 3/4] }).1 =
        .ok (Ev.C, { variate := 1/2, total_rate := 4 })) := by
  have hw := refresh_with_generator s g
  have hw1 : (update_impacted_event_rates { s with random_generator := g }).1 =
      (update_impacted_event_rates s).1 := by rw [hw]
  have hw2 : (update_impacted_event_rates { s with random_generator := g }).2.event_rate_tree =
      (update_impacted_event_rates s).2.event_rate_tree := by rw [hw]
  have hw3 : (update_impacted_event_rates { s with random_generator := g }).2.calculator_state =
      (update_impacted_event_rates s).2.calculator_state := by rw [hw]
  refine ⟨?_, ?_, ?_, ?_, by decide!⟩
  · intro e ts h
    obtain ⟨hu, hq, hts, _⟩ := select_event_ok_inv s e ts h
    rw [refresh_keeps_generator] at hq hts
    refine ⟨?_, by rw [hts], by rw [hts]; exact hq⟩
    rw [select_event_refresh_ok s hu]
    simp only [refresh_keeps_generator, refresh_keeps_get_impact]
    cases hq1 : (update_impacted_event_rates s).2.event_rate_tree.query_tree
        ((update_impacted_event_rates s).2.event_rate_tree.total_rate *
          s.random_generator.engine s.random_generator.seed
            (s.random_generator.drawn + 1)) with
    | error err => rfl
    | ok e1 => cases hg : s.get_impact e1 <;> simp [hg]
  · intro h2
    rw [select_event_result, select_event_result s, hw1, hw2]
    simp only [h2]
    cases (update_impacted_event_rates s).1 with
    | error err => rfl
    | ok u =>
      simp only [Except.bind]
      cases (update_impacted_event_rates s).2.event_rate_tree.query_tree
          ((update_impacted_event_rates s).2.event_rate_tree.total_rate *
            s.random_generator.engine s.random_generator.seed
              (s.random_generator.drawn + 1)) with
      | error err => rfl
      | ok e1 => cases hg : s.get_impact e1 <;> simp [hg, Except.map]
  · intro h1 e ts e1 ts1 ha hb
    obtain ⟨_, _, hts, _⟩ := select_event_ok_inv s e ts ha
    obtain ⟨_, _, hts1, _⟩ := select_event_ok_inv _ e1 ts1 hb
    rw [refresh_keeps_generator] at hts hts1
    rw [hts, hts1, hw2]
    simp only [h1]
  · intro h1 h2
    refine ⟨?_, ?_, ?_, ?_⟩
    · rw [select_event_result, select_event_result s, hw1, hw2]
      simp only [h1, h2]
    · rw [(select_event_frame _).1, (select_event_frame s).1, hw2]
    · rw [select_event_pending, select_event_pending s, hw1, hw2]
      simp only [h2]
    · rw [select_event_calculator_state, select_event_calculator_state s, hw3]

/-- C19. In every state reachable from a selector that one of the constructors has
produced (by `select_event` calls, failed ones included, accessor calls and changes of
the calculator's state), a refresh that succeeds leaves the pending pointer null, so
`set_impacted_events`, which `select_event` only calls after a successful refresh and
on the selector as the refresh left it, never fails its assertion, and `select_event`
never ends in a failed assertion. -/
theorem C19_assertion_holds_when_reached {C E : Type} [DecidableEq E]
    (rc : C → E → ℚ × C) (c0 : C) (ids : List E) (M : ImpactTable E) (f : E → List E)
    (g : RandomGenerator) (s0 s : RejectionFreeEventSelector C E)
    (hc : construct_table rc c0 ids M g = .ok s0 ∨ construct_function rc c0 ids f g = .ok s0)
    (hr : Reachable s0 s) :
    ((update_impacted_event_rates s).1 = .ok () →
      (update_impacted_event_rates s).2.impacted_events_ptr = none ∧
      ∀ (e : E) (g1 : RandomGenerator),
        (set_impacted_events
          { (update_impacted_event_rates s).2 with random_generator := g1 } e).1 ≠
          .error .assertion_failed) ∧
    (select_event s).1 ≠ .error .assertion_failed := by
  obtain ⟨_, _, hgi⟩ := reachable_invariants s0 s ids
    (constructed_invariants rc c0 ids M f g s0 hc) hr
  constructor
  · intro hu
    have hptr := refresh_ok_ptr s hu
    refine ⟨hptr, ?_⟩
    intro e g1
    simp only [set_impacted_events, hptr, Option.isSome_none, Bool.false_eq_true, if_false,
      refresh_keeps_get_impact]
    cases hg : s.get_impact e with
    | error err =>
      simp only [ne_eq, Except.error.injEq]
      intro hcon
      exact hgi e (hcon ▸ hg)
    | ok v => simp
  · rw [select_event_result]
    cases hu : (update_impacted_event_rates s).1 with
    | error err =>
      simp only [Except.bind, ne_eq, Except.error.injEq]
      rcases refresh_error_kind s err hu with h | h <;> simp [h]
    | ok u =>
      simp only [Except.bind]
      cases hq : (update_impacted_event_rates s).2.event_rate_tree.query_tree
          ((update_impacted_event_rates s).2.event_rate_tree.total_rate *
            s.random_generator.engine s.random_generator.seed
              (s.random_generator.drawn + 1)) with
      | error err =>
        simp only [ne_eq, Except.error.injEq]
        rw [EventRateTree.query_tree_error_kind _ _ err hq]
        simp
      | ok e =>
        simp only
        cases hg : s.get_impact e with
        | error err =>
          simp only [Except.map, ne_eq, Except.error.injEq]
          intro hcon
          exact hgi e (hcon ▸ hg)
        | ok v => simp [Except.map]

/-- Witness of C19: the state after a `select_event` that failed in its refresh (`[B, Z]`
pending, `Z` unknown), reached from the selector built with the impact function. -/
theorem C19_assertion_holds_when_reached_witness :
    construct_function s3_rates 0 [Ev.A, Ev.B] impact_with_unknown
      (stream_generator [1/2, 1/4, 1/2, 1/12]) = .ok s8_initial ∧
    Reachable s8_initial (select_event s8_dirty).2 ∧
    (select_event s8_dirty).1 = .error .UnknownEvent ∧
    (((update_impacted_event_rates (select_event s8_dirty).2).1 = .ok () →
      (update_impacted_event_rates (select_event s8_dirty).2).2.impacted_events_ptr = none ∧
      ∀ (e : Ev) (g1 : RandomGenerator),
        (set_impacted_events
          { (update_impacted_event_rates (select_event s8_dirty).2).2 with
            random_generator := g1 } e).1 ≠ .error .assertion_failed) ∧
    (select_event (select_event s8_dirty).2).1 ≠ .error .assertion_failed) :=
  ⟨Except.eq_ok_toOption_get s8_constructed _,
    Reachable.select_event _
      (Reachable.calculator _ 1 (Reachable.select_event _ Reachable.start)),
    by decide!,
    C19_assertion_holds_when_reached s3_rates 0 [Ev.A, Ev.B] [] impact_with_unknown
      (stream_generator [1/2, 1/4, 1/2, 1/12]) s8_initial (select_event s8_dirty).2
      (Or.inr (Except.eq_ok_toOption_get s8_constructed _))
      (Reachable.select_event _
        (Reachable.calculator _ 1 (Reachable.select_event _ Reachable.start)))⟩

end Lotto
